import Mathlib

/-
  Verification development for the cardano-mass-payments UTXO packing and
  fee-reconciliation engine.

  The definitions below are shallow embeddings of the Python functions in
  `cardano_mass_payments/utils/script_utils.py`, `utils/cli_utils.py` and
  `classes.py`.  External collaborators (the byte-size oracle, the fee oracle,
  the ledger client) are passed in as explicit function parameters; Python
  `while` loops whose termination depends on oracle behaviour are modelled
  with an explicit fuel parameter, `none` meaning the loop has not finished
  within the given fuel.  Amounts are modelled as `Int` (Python integers),
  byte sizes as `Nat`.
-/

namespace MassPayments

/-! ## Data model (`classes.py`, `constants/common.py`, `constants/exceptions.py`) -/

/-- `TransactionStatus` enum from `constants/common.py`. -/
inductive TransactionStatus where
  | notYetSubmitted
  | submissionOngoing
  | ttlExpired
  | submissionDone
deriving DecidableEq, Repr

/-- `DustCollectionMethod` enum from `constants/common.py`. -/
inductive DustCollectionMethod where
  | collectToSource
  | collectPerAddress
deriving DecidableEq, Repr

/-- `CardanoNetwork` enum from `constants/common.py`. -/
inductive CardanoNetwork where
  | mainnet
  | testnet
deriving DecidableEq, Repr

/-- `ScriptMethod` enum from `constants/common.py`. -/
inductive ScriptMethod where
  | methodHostCli
  | methodDockerCli
  | methodPycardano
deriving DecidableEq, Repr

/-- `PaymentDetail` from `classes.py`. -/
structure PaymentDetail where
  address : String
  amount : Int
deriving DecidableEq, Repr

/-- `InputUTXO` from `classes.py`. -/
structure InputUTXO where
  address : String
  tx_hash : String
  tx_index : Int
  amount : Int
  dust_collected_utxo : Bool := false
deriving DecidableEq, Repr

/-- `PaymentGroup` from `classes.py` (fields used by the packing engine). -/
structure PaymentGroup where
  index : Int
  payment_details : List PaymentDetail := []
  amount : Int := 0
  fee : Int := 0
  tx_size : Nat := 0
  submission_status : TransactionStatus := .notYetSubmitted
  tx_hash_id : String := ""
deriving DecidableEq, Repr

/-- Errors raised by the engines (`constants/exceptions.py`), plus the
uncaught Python `IndexError` that list indexing can raise. -/
inductive ScriptErr where
  | insufficientBalance (required_amount current_amount : Int)
  | emptyList (field : String)
  | indexError
deriving DecidableEq, Repr

/-- Sum of the `amount` fields of a payment list.  `get_total_amount_plus_fee`
(`cli_utils.py` lines 1170-1172) computes the total amount of an output list
exactly this way, before asking the fee oracle for the fee. -/
def paymentSum (l : List PaymentDetail) : Int :=
  (l.map (·.amount)).sum

/-- Sum of the `amount` fields of an input-UTXO list. -/
def utxoSum (l : List InputUTXO) : Int :=
  (l.map (·.amount)).sum

/-! ## Insufficient-balance check of `preparation_step`
(`script_utils.py` lines 293-338)

`preparation_step` computes, per output group, `total_amount + total_fee`
via `get_total_amount_plus_fee` and sums those; it sums the wallet UTXO
amounts, adds the stake reward amount, and raises `InsufficientBalance`
with the exact required and current amounts when the input total is
strictly below the output total.  The per-group `(amount, fee)` pairs are
oracle results and are passed in here. -/

/-- `total_output_amount` of `preparation_step`: sum over groups of
`total_amount + total_fee` (lines 294-324). -/
def preparationTotalOutput (groupTotals : List (Int × Int)) : Int :=
  (groupTotals.map (fun p => p.1 + p.2)).sum

/-- `total_input_amount` of `preparation_step`: wallet UTXO amounts plus the
stake reward amount (lines 326-332). -/
def preparationTotalInput (wallet : List InputUTXO) (stakeReward : Int) : Int :=
  utxoSum wallet + stakeReward

/-- The balance check of `preparation_step` (lines 334-338): raise
`InsufficientBalance(required_amount=total_output_amount,
current_amount=total_input_amount)` when the input total is strictly
smaller, otherwise continue. -/
def preparation_balance_check (wallet : List InputUTXO) (stakeReward : Int)
    (groupTotals : List (Int × Int)) : Except ScriptErr Unit :=
  let totalOut := preparationTotalOutput groupTotals
  let totalIn := preparationTotalInput wallet stakeReward
  if totalIn < totalOut then
    .error (.insufficientBalance totalOut totalIn)
  else
    .ok ()

/-! ## Balance check and change policy inside `adjust_utxos`
(`script_utils.py` lines 856-898)

One pass of the inner selection loop computes `temp_o_tfee = temp_o_total +
temp_o_fee`, `input_total` (all wallet UTXOs plus rewards), and
`change_amount = input_total - temp_o_tfee`; raises `InsufficientBalance`
when `input_total < temp_o_tfee`; otherwise either requires
`temp_o_tfee + minimum` (when `change_amount > minimum`) or folds the change
into the fee (the `else` branch, lines 877-881). -/

/-- Result of the change-policy branch of the inner selection loop. -/
structure ChangeOutcome where
  /-- `temp_o_fee` after the branch (possibly increased by the change). -/
  fee : Int
  /-- `temp_o_tfee` after the branch. -/
  tfee : Int
  /-- `temp_o_required_amt`. -/
  required : Int
  /-- `change_amount` as computed before the branch. -/
  change : Int
deriving DecidableEq, Repr

/-- Lines 856-881 of `adjust_utxos`: the insufficient-balance check and the
change-vs-minimum branch.  `minAmount` is
`masspayments_settings.cardano_minimum_amount`. -/
def adjust_balance_and_change (minAmount inputTotal tempOTotal tempOFee : Int) :
    Except ScriptErr ChangeOutcome :=
  let tfee := tempOTotal + tempOFee
  let change := inputTotal - tfee
  if inputTotal < tfee then
    .error (.insufficientBalance tfee inputTotal)
  else if change > minAmount then
    .ok ⟨tempOFee, tfee, tfee + minAmount, change⟩
  else
    let fee' := tempOFee + change
    .ok ⟨fee', tempOTotal + fee', tempOTotal + fee', change⟩

/-- Lines 890-897 of `adjust_utxos`: at loop exit, `add_change_to_fee` is set
to `True` exactly when `change_amount < cardano_minimum_amount` (strict). -/
def add_change_to_fee_flag (change minAmount : Int) : Bool :=
  change < minAmount

/-! ## C1: insufficient-balance boundary -/

/-- C1: at both balance checks (the one in `preparation_step` and the one in
the inner loop of `adjust_utxos`), the operation raises
`InsufficientBalance` carrying exactly the required total and exactly the
available total if and only if the available total is strictly below the
required total; in particular inputs totalling exactly the required amount
pass the check and inputs totalling one unit less fail it. -/
theorem C1_insufficient_balance_exact :
    (∀ (wallet : List InputUTXO) (stakeReward : Int)
        (groupTotals : List (Int × Int)),
      let req := preparationTotalOutput groupTotals
      let avail := preparationTotalInput wallet stakeReward
      (avail < req →
        preparation_balance_check wallet stakeReward groupTotals =
          .error (.insufficientBalance req avail)) ∧
      (req ≤ avail →
        preparation_balance_check wallet stakeReward groupTotals = .ok ())) ∧
    (∀ minAmount inputTotal tempOTotal tempOFee : Int,
      let req := tempOTotal + tempOFee
      ((inputTotal < req →
        adjust_balance_and_change minAmount inputTotal tempOTotal tempOFee =
          .error (.insufficientBalance req inputTotal)) ∧
      (req ≤ inputTotal →
        ∃ out, adjust_balance_and_change minAmount inputTotal tempOTotal tempOFee =
          .ok out))) ∧
    (∀ (wallet : List InputUTXO) (groupTotals : List (Int × Int)),
      let req := preparationTotalOutput groupTotals
      (preparationTotalInput wallet 0 = req →
        preparation_balance_check wallet 0 groupTotals = .ok ()) ∧
      (preparationTotalInput wallet 0 = req - 1 →
        preparation_balance_check wallet 0 groupTotals =
          .error (.insufficientBalance req (req - 1)))) := by
  refine ⟨?_, ?_, ?_⟩
  · intro wallet stakeReward groupTotals
    constructor
    · intro h
      simp [preparation_balance_check, h]
    · intro h
      simp [preparation_balance_check, not_lt.mpr h]
  · intro minAmount inputTotal tempOTotal tempOFee
    constructor
    · intro h
      simp [adjust_balance_and_change, h]
    · intro h
      by_cases hc : inputTotal - (tempOTotal + tempOFee) > minAmount
      · refine ⟨⟨tempOFee, tempOTotal + tempOFee,
          tempOTotal + tempOFee + minAmount,
          inputTotal - (tempOTotal + tempOFee)⟩, ?_⟩
        simp [adjust_balance_and_change, not_lt.mpr h, hc]
      · refine ⟨⟨tempOFee + (inputTotal - (tempOTotal + tempOFee)),
          tempOTotal + (tempOFee + (inputTotal - (tempOTotal + tempOFee))),
          tempOTotal + (tempOFee + (inputTotal - (tempOTotal + tempOFee))),
          inputTotal - (tempOTotal + tempOFee)⟩, ?_⟩
        simp [adjust_balance_and_change, not_lt.mpr h, hc]
  · intro wallet groupTotals
    constructor
    · intro h
      simp [preparation_balance_check, h]
    · intro h
      simp only [preparation_balance_check, h]
      have : preparationTotalOutput groupTotals - 1 <
          preparationTotalOutput groupTotals := by omega
      simp [this]

/-- C1 witness: a wallet with a single 6-unit UTXO against one group whose
amount-plus-fee totals `5 + 1 = 6` passes the check, while a 5-unit wallet
(one unit less) fails with `InsufficientBalance(required=6, current=5)`. -/
theorem C1_insufficient_balance_exact_witness :
    (preparationTotalInput [⟨"src", "h0", 0, 6, false⟩] 0 = preparationTotalOutput [(5, 1)] ∧
      preparation_balance_check [⟨"src", "h0", 0, 6, false⟩] 0 [(5, 1)] = .ok ()) ∧
    (preparationTotalInput [⟨"src", "h0", 0, 5, false⟩] 0 = preparationTotalOutput [(5, 1)] - 1 ∧
      preparation_balance_check [⟨"src", "h0", 0, 5, false⟩] 0 [(5, 1)] =
        .error (.insufficientBalance 6 5)) :=
  ⟨⟨by decide,
    (C1_insufficient_balance_exact.2.2 [⟨"src", "h0", 0, 6, false⟩] [(5, 1)]).1 (by decide)⟩,
   ⟨by decide,
    by
      have h := (C1_insufficient_balance_exact.2.2 [⟨"src", "h0", 0, 5, false⟩] [(5, 1)]).2
        (by decide)
      simpa using h⟩⟩

/-! ## C7: change policy of the input-selection step -/

/-- C7 counterexample: with `cardano_minimum_amount = 5`, wallet total 15,
output total 8 and fee 2, the change is `15 - 10 = 5`, exactly equal to the
minimum.  The claim puts this case in the "otherwise" branch (no folding,
fee unchanged, `add_change_to_fee` irrelevant there); the code takes the
`else` branch of lines 877-881 and folds the change into the fee
(fee becomes `7 ≠ 2`), while the flag test of line 891 (`change <
minimum`, strict) stays `false` — so the fold is not accompanied by
`add_change_to_fee = true` either. -/
theorem C7_change_equal_minimum_counterexample :
    adjust_balance_and_change 5 15 8 2 =
      .ok { fee := 7, tfee := 15, required := 15, change := 5 } ∧
    (7 : Int) ≠ 2 ∧
    add_change_to_fee_flag 5 5 = false := by
  refine ⟨by rfl, by decide, by decide⟩

/-- C7 amended: in the input-selection step of `adjust_utxos`, with
`change = inputTotal - (total + fee)`: when the inputs cannot cover
`total + fee` the step raises `InsufficientBalance`; when
`change > minimum` the fee is left unchanged and the required amount is
set to `total + fee + minimum` so a valid change output can be created;
when `change ≤ minimum` (including equality) the change is folded into the
fee, making the required amount exactly the available input total — and
`add_change_to_fee` is set at loop exit only when `change < minimum`
strictly, so at `change = minimum` the fold happens with the flag left
`false`. -/
theorem C7_change_policy (minAmount inputTotal tempOTotal tempOFee : Int) :
    (inputTotal < tempOTotal + tempOFee →
      adjust_balance_and_change minAmount inputTotal tempOTotal tempOFee =
        .error (.insufficientBalance (tempOTotal + tempOFee) inputTotal)) ∧
    (tempOTotal + tempOFee ≤ inputTotal →
      inputTotal - (tempOTotal + tempOFee) > minAmount →
      adjust_balance_and_change minAmount inputTotal tempOTotal tempOFee =
        .ok ⟨tempOFee, tempOTotal + tempOFee, tempOTotal + tempOFee + minAmount,
          inputTotal - (tempOTotal + tempOFee)⟩ ∧
      add_change_to_fee_flag (inputTotal - (tempOTotal + tempOFee)) minAmount = false) ∧
    (tempOTotal + tempOFee ≤ inputTotal →
      inputTotal - (tempOTotal + tempOFee) ≤ minAmount →
      adjust_balance_and_change minAmount inputTotal tempOTotal tempOFee =
        .ok ⟨tempOFee + (inputTotal - (tempOTotal + tempOFee)), inputTotal, inputTotal,
          inputTotal - (tempOTotal + tempOFee)⟩ ∧
      (add_change_to_fee_flag (inputTotal - (tempOTotal + tempOFee)) minAmount = true ↔
        inputTotal - (tempOTotal + tempOFee) < minAmount)) := by
  refine ⟨?_, ?_, ?_⟩
  · intro h
    simp [adjust_balance_and_change, h]
  · intro h hc
    constructor
    · simp [adjust_balance_and_change, not_lt.mpr h, hc]
    · simp only [add_change_to_fee_flag, decide_eq_false_iff_not, not_lt]
      omega
  · intro h hc
    constructor
    · have : ¬ (inputTotal - (tempOTotal + tempOFee) > minAmount) := not_lt.mpr hc
      simp only [adjust_balance_and_change, if_neg (not_lt.mpr h), if_neg this]
      congr 1
      refine ChangeOutcome.mk.injEq .. ▸ ?_
      constructor
      · rfl
      constructor
      · omega
      constructor
      · omega
      · rfl
    · simp [add_change_to_fee_flag]

/-- C7 witness: instantiating the amended change-policy theorem at the
fold branch with `minimum = 5`, input total 20, output total 8, fee 2
(`change = 10 > 5`, the require branch). -/
theorem C7_change_policy_witness :
    ((8 : Int) + 2 ≤ 20 ∧ (20 : Int) - (8 + 2) > 5) ∧
    (adjust_balance_and_change 5 20 8 2 = .ok ⟨2, 10, 15, 10⟩ ∧
      add_change_to_fee_flag (20 - (8 + 2)) 5 = false) :=
  ⟨⟨by decide, by decide⟩, by
    have h := (C7_change_policy 5 20 8 2).2.1 (by decide) (by decide)
    simpa using h⟩

/-! ## Grouping engine: `group_output_utxo` (`script_utils.py` lines 110-185)

The byte-size oracle `get_transaction_byte_size(input_arg=1, output_arg=…)`
is abstracted as a function `sizeOf` of the probed output list (the input
argument is the constant `1` at every call site of this function).  The two
`while` loops carry a fuel parameter: `none` means the loop did not finish
within the given fuel (for any fuel — i.e. it diverges). -/

/-- The additive-then-halving search of lines 163-175: while `bin_index > 0`,
probe `output_list[: max_tx_per_group_count + bin_index]`; on overflow halve
`bin_index` (floor), on success advance `max_tx_per_group_count`. Returns
the committed group size `max_tx_per_group_count`. -/
def halvingSearch (fuel : Nat) (sizeOf : List PaymentDetail → Nat) (maxTxSize : Nat)
    (l : List PaymentDetail) (count bin : Nat) : Option Nat :=
  if bin > 0 then
    match fuel with
    | 0 => none
    | fuel + 1 =>
      let txSize := sizeOf (l.take (count + bin))
      if txSize > maxTxSize then
        halvingSearch fuel sizeOf maxTxSize l count (bin / 2)
      else
        halvingSearch fuel sizeOf maxTxSize l (count + bin) bin
  else
    some count

/-- The final chunking loop of lines 178-183: `while index < num_output`,
append `output_list[index : index + k]` and set `index := index + k`.
With `k = 0` and a non-empty list this loop never terminates, which the
fuel models as `none` for every fuel. -/
def groupChunks (fuel k : Nat) (l : List PaymentDetail) (index : Nat) :
    Option (List (List PaymentDetail)) :=
  if index < l.length then
    match fuel with
    | 0 => none
    | fuel + 1 =>
      (groupChunks fuel k l (index + k)).map (fun rest => ((l.drop index).take k) :: rest)
  else
    some []

/-- `group_output_utxo` (lines 110-185), with the protocol-parameter fetch
and oracle calls abstracted.  If the whole-list draft already fits strictly
under `max_tx_size`, one group with everything is returned (line 159-160);
otherwise the initial capacity `floor(num_output * max_tx_size /
initial_tx_size)` seeds the halving search, and the committed size drives
the chunking loop. -/
def group_output_utxo (searchFuel chunkFuel : Nat) (sizeOf : List PaymentDetail → Nat)
    (maxTxSize : Nat) (l : List PaymentDetail) : Option (List (List PaymentDetail)) :=
  if sizeOf l < maxTxSize then
    some [l]
  else
    match halvingSearch searchFuel sizeOf maxTxSize l 0 (l.length * maxTxSize / sizeOf l) with
    | none => none
    | some k => groupChunks chunkFuel k l 0

/-- Shape of a chunk list: every group except possibly the last has length
exactly `k`, and the last group is non-empty and of length at most `k`. -/
def chunksShape (k : Nat) : List (List PaymentDetail) → Bool
  | [] => true
  | [g] => decide (0 < g.length ∧ g.length ≤ k)
  | g :: h :: t => decide (g.length = k) && chunksShape k (h :: t)

/-- Concatenating the chunks produced from index `i` onward recovers the
dropped suffix of the list. -/
theorem groupChunks_join (k : Nat) (l : List PaymentDetail) :
    ∀ (fuel i : Nat) (gs : List (List PaymentDetail)),
      groupChunks fuel k l i = some gs → gs.flatten = l.drop i := by
  intro fuel
  induction fuel with
  | zero =>
    intro i gs h
    simp only [groupChunks] at h
    split at h
    · exact absurd h (by simp)
    · cases h
      have hle : l.length ≤ i := le_of_not_lt (by assumption)
      simp [List.drop_eq_nil_of_le hle]
  | succ fuel ih =>
    intro i gs h
    simp only [groupChunks] at h
    split at h
    · rcases Option.map_eq_some'.mp h with ⟨rest, hrest, hcons⟩
      subst hcons
      have hr := ih (i + k) rest hrest
      have hsplit : (l.drop i).take k ++ (l.drop i).drop k = l.drop i :=
        List.take_append_drop k (l.drop i)
      have hdd : (l.drop i).drop k = l.drop (i + k) := by
        rw [List.drop_drop, Nat.add_comm]
      rw [List.flatten_cons, hr, ← hdd, hsplit]
    · cases h
      have hle : l.length ≤ i := le_of_not_lt (by assumption)
      simp [List.drop_eq_nil_of_le hle]

/-- Once the index has passed the end of the list the chunking loop stops
immediately, whatever the fuel. -/
theorem groupChunks_of_le (fuel k : Nat) (l : List PaymentDetail) (i : Nat)
    (h : ¬ i < l.length) : groupChunks fuel k l i = some [] := by
  cases fuel <;> simp [groupChunks, h]

/-- With `bin_index = 0` the halving search stops immediately and commits
the accumulated count, whatever the fuel. -/
theorem halvingSearch_bin_zero (fuel : Nat) (sizeOf : List PaymentDetail → Nat)
    (maxTxSize : Nat) (l : List PaymentDetail) (count : Nat) :
    halvingSearch fuel sizeOf maxTxSize l count 0 = some count := by
  cases fuel <;> simp [halvingSearch]

/-- With committed size `k ≥ 1` the chunks have the claimed shape: every
group except possibly the last has length exactly `k`, the last is
non-empty and no longer than `k`. -/
theorem groupChunks_shape (k : Nat) (hk : 1 ≤ k) (l : List PaymentDetail) :
    ∀ (fuel i : Nat) (gs : List (List PaymentDetail)),
      groupChunks fuel k l i = some gs → chunksShape k gs = true := by
  intro fuel
  induction fuel with
  | zero =>
    intro i gs h
    simp only [groupChunks] at h
    split at h
    · exact absurd h (by simp)
    · cases h; rfl
  | succ fuel ih =>
    intro i gs h
    simp only [groupChunks] at h
    split at h
    · rcases Option.map_eq_some'.mp h with ⟨rest, hrest, hcons⟩
      subst hcons
      have hi : i < l.length := by assumption
      have hlen : ((l.drop i).take k).length = min k (l.length - i) := by
        simp
      cases rest with
      | nil =>
        simp only [chunksShape, decide_eq_true_eq, hlen]
        omega
      | cons r rs =>
        have hik : i + k < l.length := by
          by_contra hge
          rw [groupChunks_of_le fuel k l (i + k) hge] at hrest
          exact absurd hrest (by simp)
        have hshape := ih (i + k) (r :: rs) hrest
        simp only [chunksShape, Bool.and_eq_true, decide_eq_true_eq, hlen]
        exact ⟨by omega, hshape⟩
    · cases h; rfl

/-- With committed size `0` and a position strictly inside the list, the
chunking loop never finishes, whatever the fuel. -/
theorem groupChunks_zero_none (l : List PaymentDetail) :
    ∀ (fuel i : Nat), i < l.length → groupChunks fuel 0 l i = none := by
  intro fuel
  induction fuel with
  | zero =>
    intro i hi
    simp [groupChunks, hi]
  | succ fuel ih =>
    intro i hi
    simp [groupChunks, hi, ih i hi]

/-- With committed size `k ≥ 1`, fuel `l.length - i` suffices for the
chunking loop to terminate. -/
theorem groupChunks_some (k : Nat) (hk : 1 ≤ k) (l : List PaymentDetail) :
    ∀ (fuel i : Nat), l.length - i ≤ fuel → (groupChunks fuel k l i).isSome := by
  intro fuel
  induction fuel with
  | zero =>
    intro i hfe
    have : ¬ (i < l.length) := by omega
    simp [groupChunks, this]
  | succ fuel ih =>
    intro i hfe
    by_cases hi : i < l.length
    · have hrec := ih (i + k) (by omega)
      simp only [groupChunks, if_pos hi]
      rcases Option.isSome_iff_exists.mp hrec with ⟨rest, hrest⟩
      simp [hrest]
    · simp [groupChunks, hi]

/-! ## C2: grouping correctness -/

/-- C2: whenever `group_output_utxo` returns a grouping for a non-empty
payment list, the groups partition the input exactly — concatenating them
in order yields the original list (nothing dropped, duplicated or
reordered) — and there is a committed size `k ≥ 1` such that every group
except possibly the last has length exactly `k` while the final group is
non-empty and no longer than `k`. -/
theorem C2_grouping_partition (searchFuel chunkFuel : Nat)
    (sizeOf : List PaymentDetail → Nat) (maxTxSize : Nat)
    (l : List PaymentDetail) (gs : List (List PaymentDetail))
    (hne : l ≠ [])
    (h : group_output_utxo searchFuel chunkFuel sizeOf maxTxSize l = some gs) :
    gs.flatten = l ∧ ∃ k, 1 ≤ k ∧ chunksShape k gs = true := by
  rw [group_output_utxo] at h
  split at h
  · cases h
    have hlen : 1 ≤ l.length := by
      cases l with
      | nil => exact absurd rfl hne
      | cons a t => simp
    refine ⟨by simp, l.length, hlen, ?_⟩
    simp only [chunksShape, decide_eq_true_eq]
    omega
  · split at h
    · exact absurd h (by simp)
    · rename_i k hsearch
      rcases Nat.eq_zero_or_pos k with hk0 | hk1
      · subst hk0
        have hpos : 0 < l.length := by
          cases l with
          | nil => exact absurd rfl hne
          | cons a t => simp
        rw [groupChunks_zero_none l chunkFuel 0 hpos] at h
        exact absurd h (by simp)
      · have hjoin := groupChunks_join k l chunkFuel 0 gs h
        have hshape := groupChunks_shape k hk1 l chunkFuel 0 gs h
        exact ⟨by simpa using hjoin, k, hk1, hshape⟩

/-- Linear byte-size oracle used for concrete runs: 10 bytes per output. -/
def exOracleLinear : List PaymentDetail → Nat := fun xs => 10 * xs.length

/-- Concrete 5-payment list used for concrete runs. -/
def exPayments5 : List PaymentDetail :=
  [⟨"a1", 1⟩, ⟨"a2", 2⟩, ⟨"a3", 3⟩, ⟨"a4", 4⟩, ⟨"a5", 5⟩]

/-- C2 witness: on five payments with a 10-bytes-per-output oracle and max
size 25 the engine commits group size 2 and returns `[[a1,a2],[a3,a4],[a5]]`;
the partition theorem applies. -/
theorem C2_grouping_partition_witness :
    (exPayments5 ≠ [] ∧
      group_output_utxo 10 10 exOracleLinear 25 exPayments5 =
        some [[⟨"a1", 1⟩, ⟨"a2", 2⟩], [⟨"a3", 3⟩, ⟨"a4", 4⟩], [⟨"a5", 5⟩]]) ∧
    ([[⟨"a1", 1⟩, ⟨"a2", 2⟩], [⟨"a3", 3⟩, ⟨"a4", 4⟩],
        [⟨"a5", 5⟩]] : List (List PaymentDetail)).flatten = exPayments5 ∧
    ∃ k, 1 ≤ k ∧ chunksShape k
      [[⟨"a1", 1⟩, ⟨"a2", 2⟩], [⟨"a3", 3⟩, ⟨"a4", 4⟩], [⟨"a5", 5⟩]] = true :=
  ⟨⟨by decide, by decide⟩,
    C2_grouping_partition 10 10 exOracleLinear 25 exPayments5 _ (by decide) (by decide)⟩

/-! ## C9: the halving search can commit size zero, and then the chunking
loop never terminates -/

/-- Constant byte-size oracle reporting 100 bytes for every draft. -/
def exOracleConst100 : List PaymentDetail → Nat := fun _ => 100

/-- C9: the function does not terminate for some input — with a single
payment whose draft alone measures 100 bytes against a 30-byte limit, the
initial capacity estimate `floor(1 × 30 / 100)` is `0`, the halving search
commits group size `0`, and the chunking loop then runs forever (returns
`none` for every fuel); and whenever the halving search commits a group
size of at least one, the chunking loop terminates and `group_output_utxo`
returns a grouping. -/
theorem C9_group_size_zero_nontermination :
    (∀ searchFuel,
      halvingSearch searchFuel exOracleConst100 30 [⟨"a1", 1⟩] 0
        (([⟨"a1", 1⟩] : List PaymentDetail).length * 30 / exOracleConst100 [⟨"a1", 1⟩]) =
        some 0) ∧
    (∀ searchFuel chunkFuel,
      group_output_utxo searchFuel chunkFuel exOracleConst100 30 [⟨"a1", 1⟩] = none) ∧
    (∀ (searchFuel : Nat) (sizeOf : List PaymentDetail → Nat) (maxTxSize k : Nat)
        (l : List PaymentDetail),
      halvingSearch searchFuel sizeOf maxTxSize l 0 (l.length * maxTxSize / sizeOf l) =
        some k →
      1 ≤ k →
      ∃ gs, group_output_utxo searchFuel l.length sizeOf maxTxSize l = some gs) := by
  refine ⟨?_, ?_, ?_⟩
  · intro searchFuel
    simpa using halvingSearch_bin_zero searchFuel exOracleConst100 30 [⟨"a1", 1⟩] 0
  · intro searchFuel chunkFuel
    have hz : groupChunks chunkFuel 0 [(⟨"a1", 1⟩ : PaymentDetail)] 0 = none :=
      groupChunks_zero_none _ chunkFuel 0 (by simp)
    have hs := halvingSearch_bin_zero searchFuel exOracleConst100 30 [⟨"a1", 1⟩] 0
    simp only [group_output_utxo, exOracleConst100]
    norm_num
    rw [hs]
    exact hz
  · intro searchFuel sizeOf maxTxSize k l hsearch hk
    unfold group_output_utxo
    split
    · exact ⟨[l], rfl⟩
    · rw [hsearch]
      have := groupChunks_some k hk l l.length 0 (by omega)
      exact Option.isSome_iff_exists.mp this

/-- C9 witness: the halving search on five payments (10 bytes per output,
max 25) commits size 2 ≥ 1, and indeed `group_output_utxo` returns a
grouping. -/
theorem C9_group_size_zero_nontermination_witness :
    (halvingSearch 10 exOracleLinear 25 exPayments5 0
        (exPayments5.length * 25 / exOracleLinear exPayments5) = some 2 ∧ 1 ≤ 2) ∧
    ∃ gs, group_output_utxo 10 exPayments5.length exOracleLinear 25 exPayments5 = some gs :=
  ⟨⟨by decide, by decide⟩,
    C9_group_size_zero_nontermination.2.2 10 exOracleLinear 25 2 exPayments5
      (by decide) (by decide)⟩

/-! ## Spill packing into undersized groups (`adjust_utxos` lines 750-781)

For each `under_max` group, the loop probes `u_group_list + [temp[i]]`:
`get_total_amount_plus_fee` yields `(sum of probed amounts, oracle fee)` and
the byte-size oracle yields the probed size.  On `tx_size <= max_tx_size`
the candidate is appended (popped from the temp list, index unchanged);
otherwise the index advances.  The probe's `tx_size`, `group_amount` and
`group_fee` survive into the assignments after the loop (lines 779-781)
even when the final probe was rejected. -/

/-- Result of the packing loop for one undersized group. -/
structure PackResult where
  payment_details : List PaymentDetail
  tx_size : Nat
  amount : Int
  fee : Int
  temp_remaining : List PaymentDetail
deriving DecidableEq, Repr

/-- The `while temp_utxo_index < len(temp_utxo_list)` loop of lines 756-778.
Each iteration either pops the candidate (accept) or advances the index
(reject), so `2 * temp.length + 1` fuel always suffices. -/
def pack_temp_loop (fuel : Nat) (feeOf : List PaymentDetail → Int)
    (sizeOf : List PaymentDetail → Nat) (maxTxSize : Nat)
    (uList : List PaymentDetail) (txSize : Nat) (amount fee : Int)
    (temp : List PaymentDetail) (i : Nat) : Option PackResult :=
  if h : i < temp.length then
    match fuel with
    | 0 => none
    | fuel + 1 =>
      let tempU := uList ++ [temp.get ⟨i, h⟩]
      let amount' := paymentSum tempU
      let fee' := feeOf tempU
      let txSize' := sizeOf tempU
      if txSize' ≤ maxTxSize then
        pack_temp_loop fuel feeOf sizeOf maxTxSize tempU txSize' amount' fee'
          (temp.eraseIdx i) i
      else
        pack_temp_loop fuel feeOf sizeOf maxTxSize uList txSize' amount' fee' temp (i + 1)
  else
    some ⟨uList, txSize, amount, fee, temp⟩

/-- Lines 750-781 for one undersized group: run the packing loop starting
from the group's classified `tx_size`, `amount` and `fee`, then store the
loop's last-probe values into the group. -/
def pack_temp_into_group (fuel : Nat) (feeOf : List PaymentDetail → Int)
    (sizeOf : List PaymentDetail → Nat) (maxTxSize : Nat) (g : PaymentGroup)
    (temp : List PaymentDetail) : Option (PaymentGroup × List PaymentDetail) :=
  (pack_temp_loop fuel feeOf sizeOf maxTxSize g.payment_details g.tx_size g.amount g.fee
      temp 0).map
    (fun r =>
      ({ g with payment_details := r.payment_details, tx_size := r.tx_size,
                amount := r.amount, fee := r.fee }, r.temp_remaining))

/-! ## C3: the finalization invariant fails when the last append is rejected -/

/-- C3: the finalization invariant is violated by the code.  An under-max
group holding one 5-unit payment (classified size 10, fee 1) against a
spill list with one 7-unit payment, a 10-bytes-per-output size oracle and
max size 15: the only probe `[p1, p2]` measures 20 > 15 and is rejected,
yet lines 779-781 store the rejected probe's values, so the finalized group
records `tx_size = 20 > 15` and `amount = 12`, while its
`payment_details` remain `[p1]` with amount sum 5 — both halves of the
invariant fail. -/
theorem C3_finalization_invariant_violated :
    pack_temp_into_group 10 (fun _ => 1) (fun l => 10 * l.length) 15
      { index := 0, payment_details := [⟨"p1", 5⟩], amount := 5, fee := 1, tx_size := 10 }
      [⟨"p2", 7⟩] =
      some ({ index := 0, payment_details := [⟨"p1", 5⟩], amount := 12, fee := 1,
              tx_size := 20 }, [⟨"p2", 7⟩]) ∧
    ¬ ((20 : Nat) ≤ 15) ∧
    (12 : Int) ≠ paymentSum [⟨"p1", 5⟩] := by
  refine ⟨by decide, by decide, by decide⟩

/-! ## Dust collection engine: `dust_collect` (`script_utils.py` lines 404-630)

The per-address batching loop (lines 518-606) is driven by two oracles:
`get_transaction_fee(len(inputs), 1, num_witness=…)` abstracted as
`feeOf : Nat → Nat → Int` (inputs count, witness count; the draft file is
`None` for the CLI methods), and `get_transaction_byte_size` abstracted as
`sizeOf : List InputUTXO → List PaymentDetail → Nat`.  `skOf` models the
`source_details` map from address to signing key files. -/

/-- The all-zero placeholder transaction hash used for synthetic
dust-collected UTXOs. -/
def zeroTxHash : String :=
  "0000000000000000000000000000000000000000000000000000000000000000"

/-- A dust consolidation batch: `PreparationDetail(prep_input, prep_output)`
as built at lines 520-525. -/
structure DustBatch where
  prep_input : List InputUTXO
  prep_output : List PaymentDetail
deriving DecidableEq, Repr

/-- Number of distinct signing key files implied by the distinct addresses
of an input list (lines 551-557: the two `set()` constructions). -/
def numWitnessFiles (skOf : String → List String) (inputs : List InputUTXO) : Nat :=
  (((inputs.map (·.address)).dedup).flatMap skOf).dedup.length

/-- The per-target-address batching loop of lines 513-605.  State:
`start = dust_start_index`, `inputIndex = dust_input_index`,
`tempIndex = temp_index`, `inputDust = input_dust_list`,
`output = dust_payment_output`, `finalGroups = final_address_dust_group`.
Indexing `prep_output[0]` on a batch with no output raises `IndexError`. -/
def dust_collect_loop (fuel : Nat) (feeOf : Nat → Nat → Int)
    (sizeOf : List InputUTXO → List PaymentDetail → Nat) (skOf : String → List String)
    (maxTxSize : Nat) (targetAddress : String) (dustList : List InputUTXO)
    (start inputIndex tempIndex : Nat) (inputDust : List InputUTXO)
    (output : List PaymentDetail) (finalGroups : List DustBatch) :
    Option (Except ScriptErr (List DustBatch)) :=
  if start < dustList.length then
    match fuel with
    | 0 => none
    | fuel + 1 =>
      if tempIndex = 0 then
        dust_collect_loop fuel feeOf sizeOf skOf maxTxSize targetAddress dustList
          (start + inputIndex) 0 dustList.length [] []
          (finalGroups ++ [⟨inputDust, output⟩])
      else
        let base := (dustList.drop start).take (inputIndex + tempIndex)
        let withSynthetic : Except ScriptErr (List InputUTXO) :=
          match finalGroups.getLast? with
          | none => .ok base
          | some lastB =>
            match lastB.prep_output.head? with
            | none => .error .indexError
            | some out0 =>
              .ok (base ++ [⟨out0.address, zeroTxHash, 0, out0.amount, true⟩])
        match withSynthetic with
        | .error e => some (.error e)
        | .ok tempInputs =>
          let tempInputFee := feeOf tempInputs.length (numWitnessFiles skOf tempInputs)
          let tempDustAmount := utxoSum tempInputs - tempInputFee
          let tempOutput : List PaymentDetail := [⟨targetAddress, tempDustAmount⟩]
          let txSize := sizeOf tempInputs tempOutput
          if txSize ≥ maxTxSize then
            let tempIndex' := tempIndex / 2
            dust_collect_loop fuel feeOf sizeOf skOf maxTxSize targetAddress dustList
              start inputIndex
              (if inputIndex > dustList.length then 0 else tempIndex')
              inputDust output finalGroups
          else
            dust_collect_loop fuel feeOf sizeOf skOf maxTxSize targetAddress dustList
              start (inputIndex + tempIndex)
              (if inputIndex + tempIndex > dustList.length then 0 else tempIndex)
              tempInputs tempOutput finalGroups
  else
    some (.ok finalGroups)

/-- The batching loop for one target address, with the initial state of
lines 513-517. -/
def dust_collect_address (fuel : Nat) (feeOf : Nat → Nat → Int)
    (sizeOf : List InputUTXO → List PaymentDetail → Nat) (skOf : String → List String)
    (maxTxSize : Nat) (targetAddress : String) (dustList : List InputUTXO) :
    Option (Except ScriptErr (List DustBatch)) :=
  dust_collect_loop fuel feeOf sizeOf skOf maxTxSize targetAddress dustList
    0 0 dustList.length [] [] []

/-- Stable descending insertion by `amount`, modelling
`list.sort(key=lambda u: u.amount, reverse=True)`. -/
def insertDesc (u : InputUTXO) : List InputUTXO → List InputUTXO
  | [] => [u]
  | v :: t => if u.amount ≥ v.amount then u :: v :: t else v :: insertDesc u t

/-- Stable descending sort by `amount`. -/
def sortByAmountDesc (l : List InputUTXO) : List InputUTXO :=
  l.foldr insertDesc []

/-- Lines 496-500: append a dust UTXO to its owning address's group,
preserving first-seen insertion order of addresses. -/
def addToGroup (acc : List (String × List InputUTXO)) (addr : String) (u : InputUTXO) :
    List (String × List InputUTXO) :=
  if acc.any (fun p => p.1 = addr) then
    acc.map (fun p => if p.1 = addr then (p.1, p.2 ++ [u]) else p)
  else
    acc ++ [(addr, [u])]

/-- Lines 492-500: group the sorted dust UTXOs by target address —
everything under the source address for `COLLECT_TO_SOURCE`, per owning
address for `COLLECT_PER_ADDRESS`. -/
def dust_groups_of (dcMethod : DustCollectionMethod) (sourceAddress : String)
    (dust : List InputUTXO) : List (String × List InputUTXO) :=
  match dcMethod with
  | .collectToSource => [(sourceAddress, dust)]
  | .collectPerAddress => dust.foldl (fun acc u => addToGroup acc u.address u) []

/-- Lines 509-606: run the batching loop for every target address in order. -/
def dust_collect_groups (fuel : Nat) (feeOf : Nat → Nat → Int)
    (sizeOf : List InputUTXO → List PaymentDetail → Nat) (skOf : String → List String)
    (maxTxSize : Nat) :
    List (String × List InputUTXO) → Option (Except ScriptErr (List (String × List DustBatch)))
  | [] => some (.ok [])
  | (addr, dl) :: rest =>
    match dust_collect_address fuel feeOf sizeOf skOf maxTxSize addr dl with
    | none => none
    | some (.error e) => some (.error e)
    | some (.ok batches) =>
      match dust_collect_groups fuel feeOf sizeOf skOf maxTxSize rest with
      | none => none
      | some (.error e) => some (.error e)
      | some (.ok restGroups) => some (.ok ((addr, batches) :: restGroups))

/-- Lines 608-619: for every collected address, append a synthetic wallet
UTXO built from the LAST dust batch's first output.  `dust_groups[-1]` on an
empty batch list raises `IndexError`. -/
def dust_append_wallet (wallet : List InputUTXO) :
    List (String × List DustBatch) → Except ScriptErr (List InputUTXO)
  | [] => .ok wallet
  | (_, batches) :: rest =>
    match batches.getLast? with
    | none => .error .indexError
    | some lastB =>
      match lastB.prep_output.head? with
      | none => .error .indexError
      | some out0 =>
        dust_append_wallet (wallet ++ [⟨out0.address, zeroTxHash, 0, out0.amount, true⟩]) rest

/-- Result of `dust_collect` (the fields the claims are about). -/
structure DustCollectResult where
  dust_group_details : List (String × List DustBatch)
  wallet_utxos : List InputUTXO
deriving DecidableEq, Repr

/-- `dust_collect` (lines 404-630): partition by
`amount < dust_collection_threshold` (lines 482-488), sort the dust
descending (line 491), group by method, batch per address, then extend the
usable wallet with one synthetic UTXO per address (lines 608-619) and sort
it descending (line 621). -/
def dust_collect (fuel : Nat) (feeOf : Nat → Nat → Int)
    (sizeOf : List InputUTXO → List PaymentDetail → Nat) (skOf : String → List String)
    (maxTxSize : Nat) (sourceAddress : String) (dcMethod : DustCollectionMethod)
    (threshold : Int) (inputs : List InputUTXO) :
    Option (Except ScriptErr DustCollectResult) :=
  let dust := sortByAmountDesc (inputs.filter (fun u => u.amount < threshold))
  let usable := inputs.filter (fun u => ¬ (u.amount < threshold))
  let groups := dust_groups_of dcMethod sourceAddress dust
  match dust_collect_groups fuel feeOf sizeOf skOf maxTxSize groups with
  | none => none
  | some (.error e) => some (.error e)
  | some (.ok finalMap) =>
    match dust_append_wallet usable finalMap with
    | .error e => some (.error e)
    | .ok wallet => some (.ok ⟨finalMap, sortByAmountDesc wallet⟩)

/-- Once `dust_start_index` has passed the end of the dust list the batching
loop returns the accumulated batches, whatever the fuel. -/
theorem dust_collect_loop_done (fuel : Nat) (feeOf : Nat → Nat → Int)
    (sizeOf : List InputUTXO → List PaymentDetail → Nat) (skOf : String → List String)
    (maxTxSize : Nat) (targetAddress : String) (dustList : List InputUTXO)
    (start inputIndex tempIndex : Nat) (inputDust : List InputUTXO)
    (output : List PaymentDetail) (finalGroups : List DustBatch)
    (h : ¬ start < dustList.length) :
    dust_collect_loop fuel feeOf sizeOf skOf maxTxSize targetAddress dustList
      start inputIndex tempIndex inputDust output finalGroups = some (.ok finalGroups) := by
  cases fuel <;> simp [dust_collect_loop, h]

/-! ## C10: dust collection with an empty dust set -/

/-- C10: on a non-empty input list where every UTXO meets the dust
threshold (so the dust set is empty), `COLLECT_TO_SOURCE` still registers
the source address with an empty batch list, and the wallet-extension step
(lines 608-619) indexes `dust_groups[-1]` on that empty list — an uncaught
`IndexError` — while `COLLECT_PER_ADDRESS` builds no dust group at all and
returns normally with an empty dust group map. -/
theorem C10_empty_dust_behaviour (fuel : Nat) (feeOf : Nat → Nat → Int)
    (sizeOf : List InputUTXO → List PaymentDetail → Nat) (skOf : String → List String)
    (maxTxSize : Nat) (src : String) (threshold : Int) (inputs : List InputUTXO)
    (hne : inputs ≠ []) (hall : ∀ u ∈ inputs, threshold ≤ u.amount) :
    dust_collect fuel feeOf sizeOf skOf maxTxSize src .collectToSource threshold inputs =
      some (.error .indexError) ∧
    dust_collect fuel feeOf sizeOf skOf maxTxSize src .collectPerAddress threshold inputs =
      some (.ok ⟨[], sortByAmountDesc inputs⟩) := by
  have hdust : inputs.filter (fun u => decide (u.amount < threshold)) = [] := by
    rw [List.filter_eq_nil_iff]
    intro u hu
    simp only [decide_eq_true_eq, not_lt]
    exact hall u hu
  have husable : inputs.filter (fun u => decide (¬ (u.amount < threshold))) = inputs := by
    rw [List.filter_eq_self]
    intro u hu
    simp only [decide_eq_true_eq, not_lt]
    exact hall u hu
  have haddr : dust_collect_address fuel feeOf sizeOf skOf maxTxSize src [] =
      some (.ok []) := by
    unfold dust_collect_address
    exact dust_collect_loop_done fuel feeOf sizeOf skOf maxTxSize src [] 0 0 0 [] [] []
      (by simp)
  constructor
  · unfold dust_collect
    rw [hdust, husable]
    simp only [sortByAmountDesc, List.foldr_nil, dust_groups_of]
    rw [dust_collect_groups, haddr]
    rw [dust_collect_groups]
    rfl
  · unfold dust_collect
    rw [hdust, husable]
    simp only [sortByAmountDesc, List.foldr_nil, dust_groups_of, List.foldl_nil]
    rw [dust_collect_groups]
    rfl

/-- C10 witness: one 50-unit UTXO against threshold 10 — `COLLECT_TO_SOURCE`
raises `IndexError`, `COLLECT_PER_ADDRESS` returns an empty dust map and the
unchanged (sorted) wallet. -/
theorem C10_empty_dust_behaviour_witness :
    (([⟨"a", "h0", 0, 50, false⟩] : List InputUTXO) ≠ [] ∧
      ∀ u ∈ ([⟨"a", "h0", 0, 50, false⟩] : List InputUTXO), (10 : Int) ≤ u.amount) ∧
    (dust_collect 5 (fun _ _ => 2) (fun _ _ => 30) (fun _ => ["sk"]) 100 "src"
        .collectToSource 10 [⟨"a", "h0", 0, 50, false⟩] = some (.error .indexError) ∧
      dust_collect 5 (fun _ _ => 2) (fun _ _ => 30) (fun _ => ["sk"]) 100 "src"
        .collectPerAddress 10 [⟨"a", "h0", 0, 50, false⟩] =
        some (.ok ⟨[], sortByAmountDesc [⟨"a", "h0", 0, 50, false⟩]⟩)) :=
  ⟨⟨by decide, by decide⟩,
    C10_empty_dust_behaviour 5 (fun _ _ => 2) (fun _ _ => 30) (fun _ => ["sk"]) 100 "src"
      10 [⟨"a", "h0", 0, 50, false⟩] (by decide) (by decide)⟩

/-! ## C4: dust chaining validity -/

/-- A committed batch's single output pays the target address the sum of
its input amounts minus the oracle fee for its shape (lines 576-587). -/
def batchOK (feeOf : Nat → Nat → Int) (skOf : String → List String) (target : String)
    (b : DustBatch) : Bool :=
  decide (b.prep_output =
    [⟨target, utxoSum b.prep_input -
        feeOf b.prep_input.length (numWitnessFiles skOf b.prep_input)⟩])

/-- Every synthetic (dust-collected) input of `next` is the placeholder
UTXO built from `prev`'s first output: same address, zero hash, index 0,
and amount equal to that output's amount (lines 536-546). -/
def synOK (prev next : DustBatch) : Bool :=
  next.prep_input.all (fun u =>
    !u.dust_collected_utxo ||
      (match prev.prep_output.head? with
       | none => false
       | some out0 =>
         decide (u.address = out0.address ∧ u.tx_hash = zeroTxHash ∧ u.tx_index = 0 ∧
           u.amount = out0.amount)))

/-- Chain property over consecutive batches. -/
def chainOK : List DustBatch → Bool
  | [] => true
  | [_] => true
  | a :: b :: t => synOK a b && chainOK (b :: t)

/-- Loop invariant: every synthetic input pending in `input_dust_list`
refers to the current LAST finalized batch's first output. -/
def pendingOK (finalGroups : List DustBatch) (inputDust : List InputUTXO) : Bool :=
  inputDust.all (fun u =>
    !u.dust_collected_utxo ||
      (match finalGroups.getLast? with
       | none => false
       | some lastB =>
         match lastB.prep_output.head? with
         | none => false
         | some out0 =>
           decide (u.address = out0.address ∧ u.tx_hash = zeroTxHash ∧ u.tx_index = 0 ∧
             u.amount = out0.amount)))

/-- Loop invariant: the pending `(input_dust_list, dust_payment_output)`
pair is either still the initial empty pair or a committed, consistent
probe. -/
def pairOK (feeOf : Nat → Nat → Int) (skOf : String → List String) (target : String)
    (inputDust : List InputUTXO) (output : List PaymentDetail) : Bool :=
  (decide (inputDust = []) && decide (output = [])) ||
    batchOK feeOf skOf target ⟨inputDust, output⟩

/-- Appending a batch whose synthetic inputs refer to the previous last
batch preserves the chain property. -/
theorem chainOK_append (b : DustBatch) :
    ∀ (l : List DustBatch), chainOK l = true →
      (∀ lastB, l.getLast? = some lastB → synOK lastB b = true) →
      chainOK (l ++ [b]) = true := by
  intro l
  induction l with
  | nil => intro _ _; rfl
  | cons a t ih =>
    intro hchain hlast
    cases t with
    | nil =>
      simp only [List.cons_append, List.nil_append, chainOK, Bool.and_eq_true]
      exact ⟨hlast a rfl, trivial⟩
    | cons c t' =>
      simp only [chainOK, Bool.and_eq_true] at hchain
      have ih' := ih hchain.2 (fun lastB hl => hlast lastB (by
        rw [List.getLast?_cons_cons]; exact hl))
      simp only [List.cons_append, chainOK, Bool.and_eq_true]
      exact ⟨hchain.1, by simpa using ih'⟩

/-- When the pending inputs refer to the last finalized batch, the pending
pair chains correctly onto that batch. -/
theorem synOK_of_pending (fg : List DustBatch) (inputDust : List InputUTXO)
    (output : List PaymentDetail) (lastB : DustBatch)
    (hl : fg.getLast? = some lastB)
    (hp : pendingOK fg inputDust = true) :
    synOK lastB ⟨inputDust, output⟩ = true := by
  unfold pendingOK at hp
  rw [hl] at hp
  unfold synOK
  exact hp

/-- Pending inputs drawn purely from real dust UTXOs trivially satisfy the
pending invariant. -/
theorem pendingOK_of_pure (fg : List DustBatch) (l : List InputUTXO)
    (hp : ∀ u ∈ l, u.dust_collected_utxo = false) : pendingOK fg l = true := by
  unfold pendingOK
  rw [List.all_eq_true]
  intro u hu
  simp [hp u hu]

/-- A freshly committed probe pair satisfies the pair invariant. -/
theorem pairOK_probe (feeOf : Nat → Nat → Int) (skOf : String → List String)
    (target : String) (tempInputs : List InputUTXO) :
    pairOK feeOf skOf target tempInputs
      [⟨target, utxoSum tempInputs -
          feeOf tempInputs.length (numWitnessFiles skOf tempInputs)⟩] = true := by
  simp [pairOK, batchOK]

/-- Invariant preservation for the batching loop: an `ok` run yields a
batch list that chains correctly and whose batches with non-empty inputs
all pay out sum-of-inputs minus fee. -/
theorem dust_collect_loop_spec (feeOf : Nat → Nat → Int)
    (sizeOf : List InputUTXO → List PaymentDetail → Nat) (skOf : String → List String)
    (maxTxSize : Nat) (target : String) (dustList : List InputUTXO)
    (hpure : ∀ u ∈ dustList, u.dust_collected_utxo = false) :
    ∀ (fuel start inputIndex tempIndex : Nat) (inputDust : List InputUTXO)
      (output : List PaymentDetail) (finalGroups batches : List DustBatch),
      chainOK finalGroups = true →
      (∀ b ∈ finalGroups, b.prep_input ≠ [] → batchOK feeOf skOf target b = true) →
      pendingOK finalGroups inputDust = true →
      pairOK feeOf skOf target inputDust output = true →
      dust_collect_loop fuel feeOf sizeOf skOf maxTxSize target dustList start inputIndex
        tempIndex inputDust output finalGroups = some (.ok batches) →
      chainOK batches = true ∧
        ∀ b ∈ batches, b.prep_input ≠ [] → batchOK feeOf skOf target b = true := by
  intro fuel
  induction fuel with
  | zero =>
    intro start ii ti inputDust output fg batches hchain hall hpend hpair h
    by_cases hs : start < dustList.length
    · simp [dust_collect_loop, hs] at h
    · rw [dust_collect_loop_done 0 feeOf sizeOf skOf maxTxSize target dustList
        start ii ti inputDust output fg hs] at h
      cases h
      exact ⟨hchain, hall⟩
  | succ fuel ih =>
    intro start ii ti inputDust output fg batches hchain hall hpend hpair h
    by_cases hs : start < dustList.length
    · have hbase_pure : ∀ u ∈ (dustList.drop start).take (ii + ti),
          u.dust_collected_utxo = false := fun u hu =>
        hpure u (List.mem_of_mem_drop (List.mem_of_mem_take hu))
      by_cases hti : ti = 0
      · -- finalize the pending pair
        rw [dust_collect_loop, if_pos hs, if_pos hti] at h
        refine ih (start + ii) 0 dustList.length [] []
          (fg ++ [⟨inputDust, output⟩]) batches ?_ ?_ ?_ ?_ h
        · cases hl : fg.getLast? with
          | none =>
            have : fg = [] := List.getLast?_eq_none_iff.mp hl
            subst this
            rfl
          | some lastB =>
            exact chainOK_append _ fg hchain (fun lB hlB => by
              rw [hl] at hlB; cases hlB
              exact synOK_of_pending fg inputDust output lastB hl hpend)
        · intro b hb hbne
          rcases List.mem_append.mp hb with hb | hb
          · exact hall b hb hbne
          · have hbv : b = ⟨inputDust, output⟩ := by simpa using hb
            subst hbv
            have hpair' := hpair
            simp only [pairOK, Bool.or_eq_true, Bool.and_eq_true, decide_eq_true_eq]
              at hpair'
            rcases hpair' with ⟨h1, _⟩ | hok
            · exact absurd h1 hbne
            · exact hok
        · exact pendingOK_of_pure _ _ (by intro u hu; cases hu)
        · rfl
      · -- probe a candidate slice
        rw [dust_collect_loop, if_pos hs, if_neg hti] at h
        cases hlast : fg.getLast? with
        | none =>
          simp only [hlast] at h
          split at h
          · -- oversized probe: halve temp_index and keep state
            exact ih start ii _ inputDust output fg batches hchain hall hpend hpair h
          · -- committed probe: pending becomes the probed slice
            refine ih start (ii + ti) _ _ _ fg batches hchain hall ?_ ?_ h
            · exact pendingOK_of_pure fg _ hbase_pure
            · exact pairOK_probe feeOf skOf target _
        | some lastB =>
          cases hhead : lastB.prep_output.head? with
          | none =>
            simp only [hlast, hhead] at h
            exact absurd h (by simp)
          | some out0 =>
            simp only [hlast, hhead] at h
            split at h
            · exact ih start ii _ inputDust output fg batches hchain hall hpend hpair h
            · refine ih start (ii + ti) _ _ _ fg batches hchain hall ?_ ?_ h
              · unfold pendingOK
                rw [List.all_eq_true]
                intro u hu
                rcases List.mem_append.mp hu with hu | hu
                · simp [hbase_pure u hu]
                · have huv : u = ⟨out0.address, zeroTxHash, 0, out0.amount, true⟩ := by
                    simpa using hu
                  subst huv
                  simp [hlast, hhead]
              · exact pairOK_probe feeOf skOf target _
    · rw [dust_collect_loop_done (fuel + 1) feeOf sizeOf skOf maxTxSize target dustList
        start ii ti inputDust output fg hs] at h
      cases h
      exact ⟨hchain, hall⟩

/-- C4 amended: for every `ok` run of the per-address batching loop on real
(non-synthetic) dust UTXOs, the resulting batches chain correctly — every
synthetic input of batch `i+1` is the placeholder built from batch `i`'s
single output, carrying exactly that output's amount (NOT that amount
minus batch `i`'s fee) — and every batch with non-empty inputs pays its
target the sum of its input amounts minus the oracle fee for its shape,
so each batch depends only on the immediately preceding one. -/
theorem C4_dust_chaining (fuel : Nat) (feeOf : Nat → Nat → Int)
    (sizeOf : List InputUTXO → List PaymentDetail → Nat) (skOf : String → List String)
    (maxTxSize : Nat) (target : String) (dustList : List InputUTXO)
    (hpure : ∀ u ∈ dustList, u.dust_collected_utxo = false)
    (batches : List DustBatch)
    (h : dust_collect_address fuel feeOf sizeOf skOf maxTxSize target dustList =
      some (.ok batches)) :
    chainOK batches = true ∧
      ∀ b ∈ batches, b.prep_input ≠ [] → batchOK feeOf skOf target b = true :=
  dust_collect_loop_spec feeOf sizeOf skOf maxTxSize target dustList hpure fuel 0 0
    dustList.length [] [] [] batches rfl (by intro b hb; cases hb) rfl rfl h

/-- Four dust UTXOs of 9, 8, 7 and 6 units. -/
def dustList4 : List InputUTXO :=
  [⟨"d1", "h1", 0, 9, false⟩, ⟨"d2", "h2", 0, 8, false⟩,
   ⟨"d3", "h3", 0, 7, false⟩, ⟨"d4", "h4", 0, 6, false⟩]

/-- Flat 2-unit fee oracle for dust batches. -/
def dustFee2 : Nat → Nat → Int := fun _ _ => 2

/-- 30-bytes-per-input size oracle for dust batches. -/
def dustSize30 : List InputUTXO → List PaymentDetail → Nat := fun ins _ => 30 * ins.length

/-- One signing key file for every address. -/
def dustSk : String → List String := fun _ => ["sk"]

/-- The two batches produced by the concrete run below: batch 1 folds
`[9, 8, 7]` into a 22-unit output (fee 2); batch 2 folds `[6]` together with
the synthetic 22-unit input into a 26-unit output. -/
def dustBatches4 : List DustBatch :=
  [⟨[⟨"d1", "h1", 0, 9, false⟩, ⟨"d2", "h2", 0, 8, false⟩, ⟨"d3", "h3", 0, 7, false⟩],
    [⟨"src", 22⟩]⟩,
   ⟨[⟨"d4", "h4", 0, 6, false⟩, ⟨"src", zeroTxHash, 0, 22, true⟩], [⟨"src", 26⟩]⟩]

/-- C4 counterexample: in the concrete run, batch 1 spends 24 units of
inputs into a 22-unit output, so its own fee is 2; batch 2's synthetic
input carries amount 22 — equal to batch 1's output amount, not to
`22 - 2` as the claim's "output amount minus batch i's own fee" demands. -/
theorem C4_synthetic_amount_counterexample :
    dust_collect_address 20 dustFee2 dustSize30 dustSk 100 "src" dustList4 =
      some (.ok dustBatches4) ∧
    utxoSum [⟨"d1", "h1", 0, 9, false⟩, ⟨"d2", "h2", 0, 8, false⟩,
      ⟨"d3", "h3", 0, 7, false⟩] - (22 : Int) = 2 ∧
    (22 : Int) ≠ 22 - 2 := by
  refine ⟨by rfl, by decide, by decide⟩

/-- C4 witness: applying the amended chaining theorem to the concrete
two-batch run. -/
theorem C4_dust_chaining_witness :
    (∀ u ∈ dustList4, u.dust_collected_utxo = false) ∧
    (chainOK dustBatches4 = true ∧
      ∀ b ∈ dustBatches4, b.prep_input ≠ [] → batchOK dustFee2 dustSk "src" b = true) :=
  ⟨by decide,
    C4_dust_chaining 20 dustFee2 dustSize30 dustSk 100 "src" dustList4 (by decide)
      dustBatches4 (by rfl)⟩

/-! ## C6: temporary-file discipline of `get_transaction_byte_size`
(`cli_utils.py` lines 805-922, CLI methods)

The call is a straight-line sequence: create draft file, compute fee,
fetch slot number, create raw file, sign, read size, then delete
`[draft, raw, signed]`.  Each step's `try/except` wraps and re-raises the
error without deleting anything; only the success path reaches the
deletion loop (lines 906-920).  The model tracks the set of temporary
files alive at each exit: each oracle step either succeeds (`some`) or
fails (`none`), and the function returns the stage error together with the
files left on disk. -/

/-- The stage at which a `get_transaction_byte_size` call failed, matching
the stage-specific wrapper messages of lines 805-922. -/
inductive ByteSizeStage where
  | createDraft
  | computeFee
  | fetchSlot
  | createRaw
  | signTx
  | readSize
deriving DecidableEq, Repr

/-- Outcomes of the six steps of one `get_transaction_byte_size` call. -/
structure SizeCallEnv where
  draftResult : Option String
  feeResult : Option Int
  slotResult : Option Int
  rawResult : Option String
  signResult : Option String
  sizeResult : Option Nat
deriving DecidableEq, Repr

/-- One run of the CLI path of `get_transaction_byte_size`: the result and
the list of temporary files still existing when the call exits. -/
def get_transaction_byte_size_run (env : SizeCallEnv) :
    Except ByteSizeStage Nat × List String :=
  match env.draftResult with
  | none => (.error .createDraft, [])
  | some draftFile =>
    match env.feeResult with
    | none => (.error .computeFee, [draftFile])
    | some _fee =>
      match env.slotResult with
      | none => (.error .fetchSlot, [draftFile])
      | some _slot =>
        match env.rawResult with
        | none => (.error .createRaw, [draftFile])
        | some rawFile =>
          match env.signResult with
          | none => (.error .signTx, [draftFile, rawFile])
          | some signedFile =>
            match env.sizeResult with
            | none => (.error .readSize, [draftFile, rawFile, signedFile])
            | some sz =>
              (.ok sz,
                ([draftFile, rawFile, signedFile]).filter
                  (fun f => f ∉ [draftFile, rawFile, signedFile]))

/-- C6: the cleanup is NOT guaranteed on every exit path.  When the fee
computation fails after the draft is created, the draft file survives the
call; a signing failure leaves the draft and raw files; a size-read failure
leaves all three.  Only the successful exit deletes every temporary file. -/
theorem C6_temp_files_leak_on_failure :
    (get_transaction_byte_size_run
        ⟨some "tmp.draft", none, some 1, some "tmp.raw", some "tmp.signed", some 100⟩ =
      (.error .computeFee, ["tmp.draft"])) ∧
    (["tmp.draft"] ≠ ([] : List String)) ∧
    (get_transaction_byte_size_run
        ⟨some "tmp.draft", some 10, none, some "tmp.raw", some "tmp.signed", some 100⟩ =
      (.error .fetchSlot, ["tmp.draft"])) ∧
    (get_transaction_byte_size_run
        ⟨some "tmp.draft", some 10, some 1, none, some "tmp.signed", some 100⟩ =
      (.error .createRaw, ["tmp.draft"])) ∧
    (get_transaction_byte_size_run
        ⟨some "tmp.draft", some 10, some 1, some "tmp.raw", none, some 100⟩ =
      (.error .signTx, ["tmp.draft", "tmp.raw"])) ∧
    (get_transaction_byte_size_run
        ⟨some "tmp.draft", some 10, some 1, some "tmp.raw", some "tmp.signed", none⟩ =
      (.error .readSize, ["tmp.draft", "tmp.raw", "tmp.signed"])) ∧
    (get_transaction_byte_size_run
        ⟨some "tmp.draft", some 10, some 1, some "tmp.raw", some "tmp.signed", some 100⟩ =
      (.ok 100, [])) := by
  refine ⟨by rfl, by decide, by rfl, by rfl, by rfl, by rfl, by rfl⟩

/-! ## C8: group-transaction command emission in `generate_bash_script`
(`script_utils.py` lines 1312-1372)

For each payment group the loop appends to four command lists.  Commands
are modelled symbolically; in particular the txid seed for a group is
ALWAYS `TRANSACTION_TXID` on `{uuid}_{index}.signed` (lines 1362-1365) —
the group's recorded `tx_hash_id` is never read (unlike the dust and prep
paths, which use a literal assignment from `tx_hash_id` for
`SUBMISSION_ONGOING`).  `txidLiteral` is the command shape those other
paths emit; it never occurs in the group lists. -/

/-- Symbolic commands emitted per group. -/
inductive GroupCmd where
  | buildRaw (index : Int) (fee : Int)
  | sign (index : Int)
  | submit (index : Int)
  | txidFromSignedFile (index : Int)
  | txidLiteral (index : Int) (txHashId : String)
  | ongoingPollCall (index : Int)
deriving DecidableEq, Repr

/-- The four command lists plus `group_tx_allowed_index_list` built by the
loop of lines 1303-1372. -/
structure GroupCmdLists where
  rawCmds : List GroupCmd
  signCmds : List GroupCmd
  submitCmds : List GroupCmd
  ongoingCmds : List GroupCmd
  allowedIndexList : List Int
deriving DecidableEq, Repr

/-- The per-group body of the loop (lines 1322-1372). -/
def emit_group_commands (g : PaymentGroup) : GroupCmdLists :=
  if g.submission_status = .notYetSubmitted ∨ g.submission_status = .ttlExpired ∨
      g.submission_status = .submissionOngoing then
    { rawCmds :=
        if g.submission_status = .notYetSubmitted ∨ g.submission_status = .ttlExpired then
          [.buildRaw g.index g.fee]
        else []
      signCmds :=
        if g.submission_status = .notYetSubmitted ∨ g.submission_status = .ttlExpired then
          [.sign g.index]
        else []
      submitCmds :=
        if g.submission_status = .notYetSubmitted ∨ g.submission_status = .ttlExpired then
          [.submit g.index]
        else []
      ongoingCmds := [.txidFromSignedFile g.index, .ongoingPollCall g.index]
      allowedIndexList := [g.index] }
  else
    ⟨[], [], [], [], []⟩

/-- The whole loop over `group_details_list`: the four lists are the
per-group lists concatenated in group order. -/
def generate_group_commands : List PaymentGroup → GroupCmdLists
  | [] => ⟨[], [], [], [], []⟩
  | g :: rest =>
    let c := emit_group_commands g
    let r := generate_group_commands rest
    ⟨c.rawCmds ++ r.rawCmds, c.signCmds ++ r.signCmds, c.submitCmds ++ r.submitCmds,
     c.ongoingCmds ++ r.ongoingCmds, c.allowedIndexList ++ r.allowedIndexList⟩

/-- A `SUBMISSION_ONGOING` group with a recorded transaction id. -/
def ongoingGroup : PaymentGroup :=
  { index := 0, payment_details := [⟨"dst", 5⟩], amount := 5, fee := 1, tx_size := 10,
    submission_status := .submissionOngoing, tx_hash_id := "abc123" }

/-- C8 counterexample: for a `SUBMISSION_ONGOING` group with recorded id
`"abc123"`, only the poll step is emitted, but the txid variable is seeded
by recomputing the id from the group's signed transaction file — the
recorded `tx_hash_id` is never used, contrary to the claim's "seeded with
the previously recorded transaction id". -/
theorem C8_ongoing_seed_counterexample :
    (emit_group_commands ongoingGroup).ongoingCmds =
      [.txidFromSignedFile 0, .ongoingPollCall 0] ∧
    GroupCmd.txidLiteral 0 "abc123" ∉ (emit_group_commands ongoingGroup).ongoingCmds ∧
    (emit_group_commands ongoingGroup).rawCmds = [] ∧
    (emit_group_commands ongoingGroup).signCmds = [] ∧
    (emit_group_commands ongoingGroup).submitCmds = [] := by
  refine ⟨by decide, by decide, by decide, by decide, by decide⟩

/-- C8 amended: build/sign/submit commands are emitted for a group iff its
status is `NOT_YET_SUBMITTED` or `TTL_EXPIRED`; for `SUBMISSION_ONGOING`
only the poll step is emitted, seeded with a txid recomputed from the
group's signed transaction file (never with the recorded `tx_hash_id`);
for `SUBMISSION_DONE` the group contributes nothing — in particular its
index is absent from `group_tx_allowed_index_list`, so the polling script
never rewrites its recorded id. -/
theorem C8_group_emission (g : PaymentGroup) :
    (g.submission_status = .notYetSubmitted ∨ g.submission_status = .ttlExpired →
      emit_group_commands g =
        ⟨[.buildRaw g.index g.fee], [.sign g.index], [.submit g.index],
         [.txidFromSignedFile g.index, .ongoingPollCall g.index], [g.index]⟩) ∧
    (g.submission_status = .submissionOngoing →
      emit_group_commands g =
        ⟨[], [], [], [.txidFromSignedFile g.index, .ongoingPollCall g.index], [g.index]⟩ ∧
      ∀ s, GroupCmd.txidLiteral g.index s ∉ (emit_group_commands g).ongoingCmds) ∧
    (g.submission_status = .submissionDone →
      emit_group_commands g = ⟨[], [], [], [], []⟩ ∧
      g.index ∉ (emit_group_commands g).allowedIndexList) ∧
    ((emit_group_commands g).rawCmds ≠ [] ↔
      (g.submission_status = .notYetSubmitted ∨ g.submission_status = .ttlExpired)) ∧
    (∀ rest : List PaymentGroup,
      generate_group_commands (g :: rest) =
        ⟨(emit_group_commands g).rawCmds ++ (generate_group_commands rest).rawCmds,
         (emit_group_commands g).signCmds ++ (generate_group_commands rest).signCmds,
         (emit_group_commands g).submitCmds ++ (generate_group_commands rest).submitCmds,
         (emit_group_commands g).ongoingCmds ++ (generate_group_commands rest).ongoingCmds,
         (emit_group_commands g).allowedIndexList ++
           (generate_group_commands rest).allowedIndexList⟩) := by
  rcases g with ⟨idx, pd, amt, fee, ts, st, id⟩
  cases st <;>
    refine ⟨?_, ?_, ?_, ?_, fun rest => rfl⟩ <;>
      simp [emit_group_commands]

/-- C8 witness: instantiating the emission theorem on a `SUBMISSION_DONE`
group (nothing emitted, index excluded from polling) and on the ongoing
group (poll only). -/
theorem C8_group_emission_witness :
    (emit_group_commands
        { index := 3, payment_details := [⟨"dst", 5⟩], amount := 5, fee := 1, tx_size := 10,
          submission_status := .submissionDone, tx_hash_id := "deadbeef" } =
        ⟨[], [], [], [], []⟩ ∧
      (3 : Int) ∉ (emit_group_commands
        { index := 3, payment_details := [⟨"dst", 5⟩], amount := 5, fee := 1, tx_size := 10,
          submission_status := .submissionDone, tx_hash_id := "deadbeef" }).allowedIndexList) ∧
    (emit_group_commands ongoingGroup =
        ⟨[], [], [], [.txidFromSignedFile 0, .ongoingPollCall 0], [0]⟩ ∧
      ∀ s, GroupCmd.txidLiteral 0 s ∉ (emit_group_commands ongoingGroup).ongoingCmds) :=
  ⟨(C8_group_emission _).2.2.1 rfl, (C8_group_emission ongoingGroup).2.1 rfl⟩

/-! ## C5: `TransactionPlan` serialization round trip
(`classes.py` lines 13-21, 133-319)

`TransactionPlan.json()` runs `TransactionPlanEncoder` — enums become their
string tags, every other object becomes its `__dict__` in field-assignment
order.  `TransactionPlan.from_transaction_plan_file` reads the fields back
by key lookup.  JSON values are modelled by the `Json` type below; Python
dict key lookup (`.get`) is `jGet` on the association list, so key order is
irrelevant to decoding.  `metadata` (an arbitrary JSON value passed through
unchanged, usually `None`) is modelled as `Option String`; `reward_details`
(an empty dict or `{stake_address, stake_amount}`) as
`Option (String × Int)`.  Missing-key defaults of `.get(…, [])` are not
modelled because the encoder always writes every key. -/

/-- JSON values. -/
inductive Json where
  | null
  | bool (b : Bool)
  | int (n : Int)
  | str (s : String)
  | arr (xs : List Json)
  | obj (fields : List (String × Json))
deriving Repr

/-- Python `dict.get(key)` on the association list of an object. -/
def jGet (fields : List (String × Json)) (key : String) : Option Json :=
  (fields.find? (fun p => p.1 == key)).map (·.2)

/-- Enum tag of a `TransactionStatus` (its `value`). -/
def statusTag : TransactionStatus → String
  | .notYetSubmitted => "NOT_YET_SUBMITTED"
  | .submissionOngoing => "SUBMISSION_ONGOING"
  | .ttlExpired => "TTL_EXPIRED"
  | .submissionDone => "SUBMISSION_DONE"

/-- `TransactionStatus(value)`: tag back to enum, `ValueError` on unknown. -/
def statusOfTag (s : String) : Option TransactionStatus :=
  if s == "NOT_YET_SUBMITTED" then some .notYetSubmitted
  else if s == "SUBMISSION_ONGOING" then some .submissionOngoing
  else if s == "TTL_EXPIRED" then some .ttlExpired
  else if s == "SUBMISSION_DONE" then some .submissionDone
  else none

/-- Enum tag of a `CardanoNetwork`. -/
def networkTag : CardanoNetwork → String
  | .mainnet => "MAINNET"
  | .testnet => "TESTNET"

/-- `CardanoNetwork(value)`. -/
def networkOfTag (s : String) : Option CardanoNetwork :=
  if s == "MAINNET" then some .mainnet
  else if s == "TESTNET" then some .testnet
  else none

/-- Enum tag of a `ScriptMethod`. -/
def methodTag : ScriptMethod → String
  | .methodHostCli => "HOST_CLI"
  | .methodDockerCli => "DOCKER_CLI"
  | .methodPycardano => "PYCARDANO"

/-- `ScriptMethod(value)`. -/
def methodOfTag (s : String) : Option ScriptMethod :=
  if s == "HOST_CLI" then some .methodHostCli
  else if s == "DOCKER_CLI" then some .methodDockerCli
  else if s == "PYCARDANO" then some .methodPycardano
  else none

/-- Enum tag of a `DustCollectionMethod`. -/
def dcmTag : DustCollectionMethod → String
  | .collectToSource => "COLLECT_TO_SOURCE"
  | .collectPerAddress => "COLLECT_PER_ADDRESS"

/-- `DustCollectionMethod(value)`. -/
def dcmOfTag (s : String) : Option DustCollectionMethod :=
  if s == "COLLECT_TO_SOURCE" then some .collectToSource
  else if s == "COLLECT_PER_ADDRESS" then some .collectPerAddress
  else none

/-- `PreparationDetail` from `classes.py` (also the shape of each dust
batch entry). -/
structure PreparationDetail where
  prep_input : List InputUTXO
  prep_output : List PaymentDetail
  reward_details : Option (String × Int)
  submission_status : TransactionStatus
  tx_hash_id : String
deriving DecidableEq, Repr

/-- `SourceAddressDetail` from `classes.py`. -/
structure SourceAddressDetail where
  address : String
  signing_key_file : List String
  is_main_source_address : Bool
deriving DecidableEq, Repr

/-- `TransactionPlan` from `classes.py` (fields in `__init__` assignment
order). -/
structure TransactionPlan where
  uuid : String
  prep_detail : PreparationDetail
  group_details : List PaymentGroup
  metadata : Option String
  network : CardanoNetwork
  script_method : ScriptMethod
  allowed_ttl_slots : Int
  source_details : Option (List SourceAddressDetail)
  add_change_to_fee : Bool
  dust_group_details : List (String × List PreparationDetail)
  dust_collection_method : DustCollectionMethod
  dust_collection_threshold : Int
  filename : String
deriving DecidableEq, Repr

/-- Encoder for `InputUTXO` (its `__dict__`). -/
def encInputUTXO (u : InputUTXO) : Json :=
  .obj [("address", .str u.address), ("tx_hash", .str u.tx_hash),
        ("tx_index", .int u.tx_index), ("amount", .int u.amount),
        ("dust_collected_utxo", .bool u.dust_collected_utxo)]

/-- Encoder for `PaymentDetail`. -/
def encPaymentDetail (p : PaymentDetail) : Json :=
  .obj [("address", .str p.address), ("amount", .int p.amount)]

/-- Encoder for the reward-details dict. -/
def encReward : Option (String × Int) → Json
  | none => .obj []
  | some q => .obj [("stake_address", .str q.1), ("stake_amount", .int q.2)]

/-- Encoder for `PreparationDetail`. -/
def encPrepDetail (p : PreparationDetail) : Json :=
  .obj [("prep_input", .arr (p.prep_input.map encInputUTXO)),
        ("prep_output", .arr (p.prep_output.map encPaymentDetail)),
        ("reward_details", encReward p.reward_details),
        ("submission_status", .str (statusTag p.submission_status)),
        ("tx_hash_id", .str p.tx_hash_id)]

/-- Encoder for `PaymentGroup`. -/
def encPaymentGroup (g : PaymentGroup) : Json :=
  .obj [("payment_details", .arr (g.payment_details.map encPaymentDetail)),
        ("amount", .int g.amount), ("fee", .int g.fee),
        ("tx_size", .int (g.tx_size : Int)), ("index", .int g.index),
        ("submission_status", .str (statusTag g.submission_status)),
        ("tx_hash_id", .str g.tx_hash_id)]

/-- Encoder for `SourceAddressDetail`. -/
def encSourceDetail (s : SourceAddressDetail) : Json :=
  .obj [("address", .str s.address),
        ("signing_key_file", .arr (s.signing_key_file.map .str)),
        ("is_main_source_address", .bool s.is_main_source_address)]

/-- `TransactionPlan.json()`: the `__dict__` of the plan, `None` encoded as
JSON null, the dust map as an object keyed by address. -/
def TransactionPlan.json (p : TransactionPlan) : Json :=
  .obj [("uuid", .str p.uuid),
        ("prep_detail", encPrepDetail p.prep_detail),
        ("group_details", .arr (p.group_details.map encPaymentGroup)),
        ("metadata", match p.metadata with | none => .null | some s => .str s),
        ("network", .str (networkTag p.network)),
        ("script_method", .str (methodTag p.script_method)),
        ("allowed_ttl_slots", .int p.allowed_ttl_slots),
        ("source_details",
          match p.source_details with
          | none => .null
          | some l => .arr (l.map encSourceDetail)),
        ("add_change_to_fee", .bool p.add_change_to_fee),
        ("dust_group_details",
          .obj (p.dust_group_details.map
            (fun q => (q.1, .arr (q.2.map encPrepDetail))))),
        ("dust_collection_method", .str (dcmTag p.dust_collection_method)),
        ("dust_collection_threshold", .int p.dust_collection_threshold),
        ("filename", .str p.filename)]

/-- Decoding errors: Python `TypeError` (wrong shape, e.g. iterating
`None`) and `ValueError` (unknown enum tag). -/
inductive DecErr where
  | typeError
  | valueError
deriving DecidableEq, Repr

/-- Sequential decoding of a list of JSON values (a Python list
comprehension over the parsed list). -/
def decList (dec : Json → Except DecErr α) : List Json → Except DecErr (List α)
  | [] => .ok []
  | x :: xs =>
    match dec x with
    | .error e => .error e
    | .ok a =>
      match decList dec xs with
      | .error e => .error e
      | .ok rest => .ok (a :: rest)

/-- Decoder for `InputUTXO` (lines 199-207 / 280-291). -/
def decInputUTXO : Json → Except DecErr InputUTXO
  | .obj fields =>
    match jGet fields "address", jGet fields "tx_hash", jGet fields "tx_index",
        jGet fields "amount", jGet fields "dust_collected_utxo" with
    | some (.str a), some (.str h), some (.int i), some (.int m), some (.bool d) =>
      .ok ⟨a, h, i, m, d⟩
    | _, _, _, _, _ => .error .typeError
  | _ => .error .typeError

/-- Decoder for `PaymentDetail` (lines 209-215 / 225-234). -/
def decPaymentDetail : Json → Except DecErr PaymentDetail
  | .obj fields =>
    match jGet fields "address", jGet fields "amount" with
    | some (.str a), some (.int m) => .ok ⟨a, m⟩
    | _, _ => .error .typeError
  | _ => .error .typeError

/-- Decoder for a `TransactionStatus` tag (`TransactionStatus(value)`). -/
def decStatus : Json → Except DecErr TransactionStatus
  | .str s =>
    match statusOfTag s with
    | some st => .ok st
    | none => .error .valueError
  | _ => .error .typeError

/-- Decoder for the reward-details dict (passed through verbatim by the
code; only the two shapes the encoder produces occur). -/
def decReward : Json → Except DecErr (Option (String × Int))
  | .obj [] => .ok none
  | .obj [("stake_address", .str a), ("stake_amount", .int m)] => .ok (some (a, m))
  | _ => .error .typeError

/-- Decoder for the single string of a signing-key-file list entry. -/
def decStr : Json → Except DecErr String
  | .str s => .ok s
  | _ => .error .typeError

/-- Decoder for the top-level `prep_detail` (lines 198-221): reads
`prep_input`, `prep_output`, `reward_details`, `submission_status` and
`tx_hash_id`. -/
def decPrepDetail : Json → Except DecErr PreparationDetail
  | .obj fields =>
    match jGet fields "prep_input", jGet fields "prep_output",
        jGet fields "reward_details", jGet fields "submission_status",
        jGet fields "tx_hash_id" with
    | some (.arr ins), some (.arr outs), some rj, some sj, some (.str tid) =>
      (match decList decInputUTXO ins with
       | .error e => .error e
       | .ok i =>
         match decList decPaymentDetail outs with
         | .error e => .error e
         | .ok o =>
           match decReward rj with
           | .error e => .error e
           | .ok r =>
             match decStatus sj with
             | .error e => .error e
             | .ok st => .ok ⟨i, o, r, st, tid⟩)
    | _, _, _, _, _ => .error .typeError
  | _ => .error .typeError

/-- Decoder for a dust-map `PreparationDetail` (lines 278-305): identical
to `decPrepDetail` except that `reward_details` is NOT read — the
constructor call omits it, so the decoded batch always carries the default
empty reward dict. -/
def decDustPrep : Json → Except DecErr PreparationDetail
  | .obj fields =>
    match jGet fields "prep_input", jGet fields "prep_output",
        jGet fields "submission_status", jGet fields "tx_hash_id" with
    | some (.arr ins), some (.arr outs), some sj, some (.str tid) =>
      (match decList decInputUTXO ins with
       | .error e => .error e
       | .ok i =>
         match decList decPaymentDetail outs with
         | .error e => .error e
         | .ok o =>
           match decStatus sj with
           | .error e => .error e
           | .ok st => .ok ⟨i, o, none, st, tid⟩)
    | _, _, _, _ => .error .typeError
  | _ => .error .typeError

/-- Decoder for `PaymentGroup` (lines 222-247). -/
def decPaymentGroup : Json → Except DecErr PaymentGroup
  | .obj fields =>
    match jGet fields "payment_details", jGet fields "amount", jGet fields "fee",
        jGet fields "tx_size", jGet fields "index",
        jGet fields "submission_status", jGet fields "tx_hash_id" with
    | some (.arr pds), some (.int amt), some (.int fee), some (.int (Int.ofNat ts)),
        some (.int idx), some sj, some (.str tid) =>
      (match decList decPaymentDetail pds with
       | .error e => .error e
       | .ok pd =>
         match decStatus sj with
         | .error e => .error e
         | .ok st => .ok ⟨idx, pd, amt, fee, ts, st, tid⟩)
    | _, _, _, _, _, _, _ => .error .typeError
  | _ => .error .typeError

/-- Decoder for `SourceAddressDetail` (lines 254-263). -/
def decSourceDetail : Json → Except DecErr SourceAddressDetail
  | .obj fields =>
    match jGet fields "address", jGet fields "signing_key_file",
        jGet fields "is_main_source_address" with
    | some (.str a), some (.arr fs), some (.bool b) =>
      (match decList decStr fs with
       | .error e => .error e
       | .ok l => .ok ⟨a, l, b⟩)
    | _, _, _ => .error .typeError
  | _ => .error .typeError

/-- Decoder for the nested dust-group map (lines 274-310), in key order. -/
def decDustMap : List (String × Json) → Except DecErr (List (String × List PreparationDetail))
  | [] => .ok []
  | (addr, j) :: rest =>
    match j with
    | .arr batches =>
      (match decList decDustPrep batches with
       | .error e => .error e
       | .ok bs =>
         match decDustMap rest with
         | .error e => .error e
         | .ok r => .ok ((addr, bs) :: r))
    | _ => .error .typeError

/-- Field readers shared by the plan decoder. -/
def asStr : Option Json → Except DecErr String
  | some (.str s) => .ok s
  | _ => .error .typeError

/-- Read an integer field. -/
def asInt : Option Json → Except DecErr Int
  | some (.int n) => .ok n
  | _ => .error .typeError

/-- Read a boolean field. -/
def asBool : Option Json → Except DecErr Bool
  | some (.bool b) => .ok b
  | _ => .error .typeError

/-- Read the `metadata` field (passed through verbatim; `None` or a
value). -/
def asMeta : Option Json → Except DecErr (Option String)
  | some .null => .ok none
  | some (.str s) => .ok (some s)
  | _ => .error .typeError

/-- `CardanoNetwork(value)` on the `network` field. -/
def asNetwork (j : Option Json) : Except DecErr CardanoNetwork := do
  let s ← asStr j
  match networkOfTag s with
  | some n => .ok n
  | none => .error .valueError

/-- `ScriptMethod(value)` on the `script_method` field. -/
def asMethod (j : Option Json) : Except DecErr ScriptMethod := do
  let s ← asStr j
  match methodOfTag s with
  | some m => .ok m
  | none => .error .valueError

/-- `DustCollectionMethod(value)` on the `dust_collection_method` field. -/
def asDcm (j : Option Json) : Except DecErr DustCollectionMethod := do
  let s ← asStr j
  match dcmOfTag s with
  | some m => .ok m
  | none => .error .valueError

/-- Read `source_details` (line 254-263): the list comprehension iterates
`transaction_plan_details.get("source_details")` WITHOUT a default, so a
JSON `null` here is Python iterating `None` — a `TypeError`. -/
def asSourceDetails : Option Json → Except DecErr (List SourceAddressDetail)
  | some .null => .error .typeError
  | some (.arr xs) => decList decSourceDetail xs
  | _ => .error .typeError

/-- Read `dust_group_details` (lines 274-310): only a truthy (non-empty)
dict is decoded; an empty dict or `null` leaves the constructor default
`{}`. -/
def asDust : Option Json → Except DecErr (List (String × List PreparationDetail))
  | some (.obj []) => .ok []
  | some .null => .ok []
  | some (.obj entries) => decDustMap entries
  | _ => .error .typeError

/-- The sequential field-by-field decoding of
`TransactionPlan.from_transaction_plan_file` (lines 184-312), applied to
the looked-up field values.  The plan\'s `filename` is the file name the
plan was read from (line 271). -/
def decPlanFields (uuidJ prepJ groupsJ metaJ networkJ methodJ ttlJ sourceJ acfJ dustJ
    dcmJ thrJ : Option Json) (fname : String) : Except DecErr TransactionPlan := do
  let uuidStr ← asStr uuidJ
  let prep ← match prepJ with
    | some pj => decPrepDetail pj
    | none => .error .typeError
  let gs ← match groupsJ with
    | some (.arr gjs) => decList decPaymentGroup gjs
    | _ => .error .typeError
  let meta ← asMeta metaJ
  let network ← asNetwork networkJ
  let script_method ← asMethod methodJ
  let ttl ← asInt ttlJ
  let sdl ← asSourceDetails sourceJ
  let acf ← asBool acfJ
  let dust ← asDust dustJ
  let dcMethod ← asDcm dcmJ
  let thr ← asInt thrJ
  .ok ⟨uuidStr, prep, gs, meta, network, script_method, ttl, some sdl, acf, dust,
    dcMethod, thr, fname⟩

/-- `TransactionPlan.from_transaction_plan_file` (lines 184-312) applied to
the parsed JSON of the plan file named `fname`. -/
def TransactionPlan.from_transaction_plan_file (j : Json) (fname : String) :
    Except DecErr TransactionPlan :=
  match j with
  | .obj fields =>
    decPlanFields (jGet fields "uuid") (jGet fields "prep_detail")
      (jGet fields "group_details") (jGet fields "metadata") (jGet fields "network")
      (jGet fields "script_method") (jGet fields "allowed_ttl_slots")
      (jGet fields "source_details") (jGet fields "add_change_to_fee")
      (jGet fields "dust_group_details") (jGet fields "dust_collection_method")
      (jGet fields "dust_collection_threshold") fname
  | _ => .error .typeError

/-! ### Round-trip lemmas: decoding an encoded entity recovers it -/

/-- Round trip for `InputUTXO`. -/
theorem decInputUTXO_enc (u : InputUTXO) : decInputUTXO (encInputUTXO u) = .ok u := rfl

/-- Round trip for `PaymentDetail`. -/
theorem decPaymentDetail_enc (p : PaymentDetail) :
    decPaymentDetail (encPaymentDetail p) = .ok p := rfl

/-- Round trip for a status tag. -/
theorem decStatus_enc (st : TransactionStatus) :
    decStatus (.str (statusTag st)) = .ok st := by cases st <;> rfl

/-- Round trip for the reward dict. -/
theorem decReward_enc (r : Option (String × Int)) : decReward (encReward r) = .ok r := by
  cases r <;> rfl

/-- Round trip for a signing-key-file string. -/
theorem decStr_enc (s : String) : decStr (.str s) = .ok s := rfl

/-- Round trip for element-wise decoding of an encoded list. -/
theorem decList_map {α : Type} (dec : Json → Except DecErr α) (enc : α → Json)
    (xs : List α) (h : ∀ x ∈ xs, dec (enc x) = .ok x) :
    decList dec (xs.map enc) = .ok xs := by
  induction xs with
  | nil => rfl
  | cons x xs ih =>
    simp [decList, h x (by simp), ih (fun y hy => h y (by simp [hy]))]

/-- Decoding an encoded `PreparationDetail` reaches the stalled component
decoders. -/
theorem decPrepDetail_enc_step (p : PreparationDetail) :
    decPrepDetail (encPrepDetail p) =
      (match decList decInputUTXO (p.prep_input.map encInputUTXO) with
       | .error e => .error e
       | .ok i =>
         match decList decPaymentDetail (p.prep_output.map encPaymentDetail) with
         | .error e => .error e
         | .ok o =>
           match decReward (encReward p.reward_details) with
           | .error e => .error e
           | .ok r =>
             match decStatus (.str (statusTag p.submission_status)) with
             | .error e => .error e
             | .ok st => .ok ⟨i, o, r, st, p.tx_hash_id⟩) := rfl

/-- Round trip for `PreparationDetail`. -/
theorem decPrepDetail_enc (p : PreparationDetail) :
    decPrepDetail (encPrepDetail p) = .ok p := by
  rw [decPrepDetail_enc_step,
    decList_map decInputUTXO encInputUTXO p.prep_input (fun x _ => decInputUTXO_enc x),
    decList_map decPaymentDetail encPaymentDetail p.prep_output
      (fun x _ => decPaymentDetail_enc x),
    decReward_enc, decStatus_enc]

/-- Decoding an encoded `PaymentGroup` reaches the stalled component
decoders. -/
theorem decPaymentGroup_enc_step (g : PaymentGroup) :
    decPaymentGroup (encPaymentGroup g) =
      (match decList decPaymentDetail (g.payment_details.map encPaymentDetail) with
       | .error e => .error e
       | .ok pd =>
         match decStatus (.str (statusTag g.submission_status)) with
         | .error e => .error e
         | .ok st => .ok ⟨g.index, pd, g.amount, g.fee, g.tx_size, st, g.tx_hash_id⟩) := rfl

/-- Round trip for `PaymentGroup`. -/
theorem decPaymentGroup_enc (g : PaymentGroup) :
    decPaymentGroup (encPaymentGroup g) = .ok g := by
  rw [decPaymentGroup_enc_step,
    decList_map decPaymentDetail encPaymentDetail g.payment_details
      (fun x _ => decPaymentDetail_enc x),
    decStatus_enc]

/-- Decoding an encoded `SourceAddressDetail` reaches the stalled list
decoder. -/
theorem decSourceDetail_enc_step (s : SourceAddressDetail) :
    decSourceDetail (encSourceDetail s) =
      (match decList decStr (s.signing_key_file.map .str) with
       | .error e => .error e
       | .ok l => .ok ⟨s.address, l, s.is_main_source_address⟩) := rfl

/-- Round trip for `SourceAddressDetail`. -/
theorem decSourceDetail_enc (s : SourceAddressDetail) :
    decSourceDetail (encSourceDetail s) = .ok s := by
  rw [decSourceDetail_enc_step,
    decList_map decStr .str s.signing_key_file (fun x _ => decStr_enc x)]

/-- Decoding an encoded dust batch reaches the stalled component decoders
(the `reward_details` key is present but never read). -/
theorem decDustPrep_enc_step (p : PreparationDetail) :
    decDustPrep (encPrepDetail p) =
      (match decList decInputUTXO (p.prep_input.map encInputUTXO) with
       | .error e => .error e
       | .ok i =>
         match decList decPaymentDetail (p.prep_output.map encPaymentDetail) with
         | .error e => .error e
         | .ok o =>
           match decStatus (.str (statusTag p.submission_status)) with
           | .error e => .error e
           | .ok st => .ok ⟨i, o, none, st, p.tx_hash_id⟩) := rfl

/-- Round trip for a dust batch whose reward dict is empty (the only shape
`dust_collect` produces). -/
theorem decDustPrep_enc (p : PreparationDetail) (hr : p.reward_details = none) :
    decDustPrep (encPrepDetail p) = .ok p := by
  rcases p with ⟨pi, po, pr, ps, pt⟩
  cases hr
  rw [decDustPrep_enc_step,
    decList_map decInputUTXO encInputUTXO pi (fun x _ => decInputUTXO_enc x),
    decList_map decPaymentDetail encPaymentDetail po (fun x _ => decPaymentDetail_enc x),
    decStatus_enc]

/-- Round trip for the dust-group map, when every batch's reward dict is
empty. -/
theorem decDustMap_enc (d : List (String × List PreparationDetail))
    (hd : ∀ q ∈ d, ∀ b ∈ q.2, b.reward_details = none) :
    decDustMap (d.map (fun q => (q.1, .arr (q.2.map encPrepDetail)))) = .ok d := by
  induction d with
  | nil => rfl
  | cons q rest ih =>
    have hq : decList decDustPrep (q.2.map encPrepDetail) = .ok q.2 :=
      decList_map decDustPrep encPrepDetail q.2
        (fun b hb => decDustPrep_enc b (hd q (by simp) b hb))
    simp [decDustMap, hq, ih (fun q' hq' => hd q' (by simp [hq']))]

/-- Round trip for the network tag. -/
theorem asNetwork_enc (n : CardanoNetwork) :
    asNetwork (some (.str (networkTag n))) = .ok n := by cases n <;> rfl

/-- Round trip for the script-method tag. -/
theorem asMethod_enc (m : ScriptMethod) :
    asMethod (some (.str (methodTag m))) = .ok m := by cases m <;> rfl

/-- Round trip for the dust-collection-method tag. -/
theorem asDcm_enc (m : DustCollectionMethod) :
    asDcm (some (.str (dcmTag m))) = .ok m := by cases m <;> rfl

/-- Round trip for the metadata field. -/
theorem asMeta_enc (m : Option String) :
    asMeta (some (match m with | none => Json.null | some s => .str s)) = .ok m := by
  cases m <;> rfl

/-- Round trip for a present (non-`None`) source-details list. -/
theorem asSourceDetails_enc (l : List SourceAddressDetail) :
    asSourceDetails (some (.arr (l.map encSourceDetail))) = .ok l := by
  show decList decSourceDetail (l.map encSourceDetail) = .ok l
  exact decList_map decSourceDetail encSourceDetail l (fun x _ => decSourceDetail_enc x)

/-- Round trip for the dust-group map, when every batch's reward dict is
empty. -/
theorem asDust_enc (d : List (String × List PreparationDetail))
    (hd : ∀ q ∈ d, ∀ b ∈ q.2, b.reward_details = none) :
    asDust (some (.obj (d.map (fun q => (q.1, .arr (q.2.map encPrepDetail)))))) = .ok d := by
  cases d with
  | nil => rfl
  | cons q rest =>
    show decDustMap ((q :: rest).map (fun q => (q.1, .arr (q.2.map encPrepDetail)))) =
      .ok (q :: rest)
    exact decDustMap_enc (q :: rest) hd

/-- Decoding the encoded plan dispatches the thirteen key lookups to
`decPlanFields`. -/
theorem from_file_enc_step (p : TransactionPlan) (fname : String) :
    TransactionPlan.from_transaction_plan_file (TransactionPlan.json p) fname =
      decPlanFields (some (.str p.uuid)) (some (encPrepDetail p.prep_detail))
        (some (.arr (p.group_details.map encPaymentGroup)))
        (some (match p.metadata with | none => Json.null | some s => .str s))
        (some (.str (networkTag p.network))) (some (.str (methodTag p.script_method)))
        (some (.int p.allowed_ttl_slots))
        (some (match p.source_details with
               | none => Json.null
               | some l => .arr (l.map encSourceDetail)))
        (some (.bool p.add_change_to_fee))
        (some (.obj (p.dust_group_details.map
          (fun q => (q.1, .arr (q.2.map encPrepDetail))))))
        (some (.str (dcmTag p.dust_collection_method)))
        (some (.int p.dust_collection_threshold)) fname := rfl

/-- C5 amended: serializing a `TransactionPlan` with `TransactionPlan.json`
and deserializing the result with `from_transaction_plan_file` (under the
plan's own filename) reproduces every field — enum values preserved as
their string tags and the dust map still keyed by address — PROVIDED the
plan's `source_details` is an actual list (not `None`) and every dust
batch's `reward_details` is the empty dict (the only shape `dust_collect`
produces); decoding is by key lookup, so the result is independent of key
order. -/
theorem C5_plan_round_trip (p : TransactionPlan) (sds : List SourceAddressDetail)
    (hsd : p.source_details = some sds)
    (hdust : ∀ q ∈ p.dust_group_details, ∀ b ∈ q.2, b.reward_details = none) :
    TransactionPlan.from_transaction_plan_file (TransactionPlan.json p) p.filename =
      .ok p := by
  have hgroups : decList decPaymentGroup (p.group_details.map encPaymentGroup) =
      .ok p.group_details :=
    decList_map decPaymentGroup encPaymentGroup p.group_details
      (fun g _ => decPaymentGroup_enc g)
  have hdustEq := asDust_enc p.dust_group_details hdust
  rcases p with ⟨u, pr, g, m, nw, sm, ttl, sd, acf, du, dc, th, fn⟩
  cases hsd
  rw [from_file_enc_step]
  simp only at hgroups hdustEq
  simp only [decPlanFields, bind, Except.bind, asStr, asInt, asBool, asMeta_enc,
    asNetwork_enc, asMethod_enc, asDcm_enc, asSourceDetails_enc, hdustEq,
    decPrepDetail_enc, hgroups]

/-- A plan as `adjust_utxos` constructs it: `source_details` left `None`. -/
def planNoSources : TransactionPlan :=
  { uuid := "u1",
    prep_detail := ⟨[⟨"src", "h0", 0, 100, false⟩], [⟨"src", 60⟩], none,
      .notYetSubmitted, ""⟩,
    group_details := [⟨0, [⟨"dst", 50⟩], 50, 10, 200, .notYetSubmitted, ""⟩],
    metadata := none, network := .testnet, script_method := .methodDockerCli,
    allowed_ttl_slots := 100, source_details := none, add_change_to_fee := false,
    dust_group_details := [], dust_collection_method := .collectToSource,
    dust_collection_threshold := 10000000, filename := "u1_transaction_plan.json" }

/-- A plan whose dust batch carries a non-empty reward dict. -/
def planDustReward : TransactionPlan :=
  { planNoSources with
    uuid := "u2", filename := "u2_transaction_plan.json",
    source_details := some [⟨"src", ["sk"], true⟩],
    dust_group_details :=
      [("src", [⟨[⟨"d1", "h1", 0, 5, false⟩], [⟨"src", 4⟩], some ("stake", 7),
        .notYetSubmitted, ""⟩])] }

/-- `planDustReward` after a round trip: the dust batch's reward dict is
stripped back to the constructor default. -/
def planDustRewardStripped : TransactionPlan :=
  { planDustReward with
    dust_group_details :=
      [("src", [⟨[⟨"d1", "h1", 0, 5, false⟩], [⟨"src", 4⟩], none,
        .notYetSubmitted, ""⟩])] }

/-- C5 counterexample: the round trip is NOT the identity for every
`TransactionPlan`.  (1) A plan with `source_details = None` — exactly what
`adjust_utxos` returns — serializes fine, but deserializing raises a
`TypeError`: line 262 iterates `…get("source_details")` without a default.
(2) A plan whose dust batch has a non-empty `reward_details` comes back
changed: the dust decoder (lines 278-305) never reads that key. -/
theorem C5_round_trip_counterexample :
    TransactionPlan.from_transaction_plan_file (TransactionPlan.json planNoSources)
      planNoSources.filename = .error .typeError ∧
    (TransactionPlan.from_transaction_plan_file (TransactionPlan.json planDustReward)
      planDustReward.filename = .ok planDustRewardStripped ∧
      planDustRewardStripped ≠ planDustReward) := by
  refine ⟨by rfl, by rfl, by decide⟩

/-- A well-formed plan (list-valued `source_details`, empty dust reward
dicts) exercising all thirteen fields, nested dust map included. -/
def planGood : TransactionPlan :=
  { uuid := "u3",
    prep_detail := ⟨[⟨"src", "h0", 0, 100, false⟩, ⟨"src", zeroTxHash, 0, 20, true⟩],
      [⟨"src", 60⟩, ⟨"src", 55⟩], some ("stake1", 9), .submissionOngoing, "prepid"⟩,
    group_details :=
      [⟨0, [⟨"dst1", 30⟩, ⟨"dst2", 20⟩], 50, 10, 200, .submissionDone, "gid0"⟩,
       ⟨1, [⟨"dst3", 40⟩], 40, 11, 150, .ttlExpired, ""⟩],
    metadata := some "meta", network := .mainnet, script_method := .methodPycardano,
    allowed_ttl_slots := 250, source_details := some [⟨"src", ["sk1", "sk2"], true⟩],
    add_change_to_fee := true,
    dust_group_details :=
      [("src", [⟨[⟨"d1", "h1", 0, 5, false⟩], [⟨"src", 4⟩], none, .submissionDone,
        "dustid"⟩])],
    dust_collection_method := .collectPerAddress,
    dust_collection_threshold := 777, filename := "u3_transaction_plan.json" }

/-- C5 witness: the amended round-trip theorem applied to `planGood`. -/
theorem C5_plan_round_trip_witness :
    (planGood.source_details = some [⟨"src", ["sk1", "sk2"], true⟩] ∧
      ∀ q ∈ planGood.dust_group_details, ∀ b ∈ q.2, b.reward_details = none) ∧
    TransactionPlan.from_transaction_plan_file (TransactionPlan.json planGood)
      planGood.filename = .ok planGood :=
  ⟨⟨rfl, by decide⟩,
    C5_plan_round_trip planGood [⟨"src", ["sk1", "sk2"], true⟩] rfl (by decide)⟩

end MassPayments
